import Mathlib

/-!
# noteclerk: the relational note store, its configuration loader and its service boundary

A shallow embedding of `postgresdb.go`, `config.go` and `dependencies.go`, with the parts
of `database/sql` and of the driver `lib/pq` that their behaviour depends on.

* Go values become Lean structures; a pointer field that the code dereferences
  without a nil check (`nf.DateCreated.Seconds`) is an `Option`, and the
  dereference of `none` is the outcome `Outcome.panic`.
* The handle `*sql.DB` together with the database behind it is the state `Db`:
  the rows of the four tables, the generated-key counters, whether the handle
  has been closed, the replies the backend will give to the coming statements
  and the log of the calls made through the handle.
* Go errors are values of `GoError`; a nil error is `none`.
-/

namespace NoteClerk

/-! ## Messages of the `ehrpb` package, as far as the store reads them -/

/-- The protobuf timestamp: seconds and nanoseconds. -/
structure Timestamp where
  Seconds : Int
  Nanos : Int
deriving DecidableEq, Repr

/-- The fields of `ehrpb.NoteFragment` that the repository touches. `DateCreated` is a
pointer field and may be nil. -/
structure NoteFragment where
  Id : Int
  DateCreated : Option Timestamp
  NoteFragmentGuid : String
  NoteGuid : String
  IssueGuid : String
  Icd_10Code : String
  Icd_10Long : String
  Description : String
  Status : Int
  Priority : Int
  Topic : Int
  Content : String
  Tags : List String
deriving DecidableEq, Repr

/-- The fields of `ehrpb.Note` that the repository touches. The elements of
`Fragments` stand for non-nil pointers. -/
structure Note where
  Id : Int
  DateCreated : Option Timestamp
  NoteGuid : String
  VisitGuid : String
  AuthorGuid : String
  PatientGuid : String
  Type_ : Int
  Status : Int
  Fragments : List NoteFragment
  Tags : List String
deriving DecidableEq, Repr

/-! ## Errors -/

/-- The package-level error values the three files refer to. Their declarations are
not part of the sources at hand; each is a distinct non-nil error value. -/
inductive Sentinel
  | ErrPostgresDbInitFailedToOpenConn
  | ErrPostgresDbInitFailedToPingDb
  | ErrPostgresDbInitFailedToCreateSchema
  | ErrPostgresDbInitTableAlreadyExistsErr
  | ErrPostgresDbCreateSchemaFails
  | ErrPostgresDbCreateTableFails
  | ErrPostgresDbAddNoteFailedToGetNewId
  | ErrPostgresDbAddNoteFailedToAddNoteFragments
  | ErrPostgresDbAddNoteFailedToAddNoteTagToDb
  | ErrPostgresDbAddNoteTagFailedToGetNewId
  | ErrPostgresDbAddNoteFragmentFailedToGetNewId
  | ErrPostgresDbAddNoteFragmentFailedToAddNoteFragmentTagToDb
  | ErrLoadConfigurationFailsReadFile
  | ErrLoadConfigurationFailsJsonMarshal
  | ErrLoadConfigurationAbortsAfterJsonMarshalDueToEmptyConfig
deriving DecidableEq, Repr

/-- A non-nil Go error.
`driver text` is an error produced by `database/sql` or the driver, known by its
`Error()` text; `ErrNoRows` is the value `sql.ErrNoRows`; `scanNotPointer` is the error
`Rows.Scan` returns for a destination that is not a pointer; `scanOutOfRange i` is the
error `Rows.Scan` returns when the value of column `i` does not fit the integer type of
its destination; `wrapf cause ctx detail`
is `errors.Wrapf(cause, ctx + "%v", detail)`: the cause is the package-level value and
the message is `ctx` followed by the text of `detail`. -/
inductive GoError
  | driver (text : String)
  | ErrNoRows
  | scanNotPointer
  | scanOutOfRange (column : Nat)
  | sentinel (s : Sentinel)
  | wrapf (cause : Sentinel) (ctx : String) (detail : GoError)
deriving DecidableEq, Repr

/-- The error at the bottom of a chain of `errors.Wrapf` annotations: the first failure,
whose text the outer messages carry. -/
def GoError.root : GoError → GoError
  | .wrapf _ _ detail => detail.root
  | e => e

/-- How a Go call ends: it returns, it panics on a nil pointer dereference, or
the process is terminated. -/
inductive Outcome (α : Type) where
  | ret (a : α)
  | panic
  | exit (msg : String)
deriving DecidableEq, Repr

/-! ## The database behind the handle -/

/-- The four tables of the persisted layout. -/
inductive Table
  | note
  | note_tag
  | note_fragment
  | note_fragment_tag
deriving DecidableEq, Repr

/-- The name of a table in an error text of the backend. -/
def Table.name : Table → String
  | .note => "note"
  | .note_tag => "note_tag"
  | .note_fragment => "note_fragment"
  | .note_fragment_tag => "note_fragment_tag"

/-- The columns of `note` after `id`, in the order `AddNote` passes them. -/
structure NoteCols where
  created_sec : Int
  created_nsec : Int
  note_guid : String
  visit_guid : String
  author_guid : String
  patient_guid : String
  type : Int
  status : Int
deriving DecidableEq, Repr

/-- The columns of `note_fragment` after `id`, in the order `AddNoteFragment` passes them. -/
structure FragmentCols where
  created_sec : Int
  created_nsec : Int
  fragment_guid : String
  note_guid : String
  icd10_code : String
  icd10_long : String
  description : String
  status : Int
  priority : Int
  topic : Int
  content : String
deriving DecidableEq, Repr

/-- The columns of either tag table after `id`: the owner's guid and the tag. -/
structure TagCols where
  owner_guid : String
  tag : String
deriving DecidableEq, Repr

/-- A stored row: the generated primary key and the other columns. -/
structure Row (α : Type) where
  id : Int
  cols : α
deriving DecidableEq, Repr

/-- The statements the store sends, each with the arguments bound to it. The query
constants (`addNoteQuery`, `createNoteTable`, ...) are declared outside the sources at
hand; each is identified here by the table the persisted layout gives it. -/
inductive Stmt
  | addNoteQuery (c : NoteCols)
  | addNoteTagQuery (c : TagCols)
  | addNoteFragmentQuery (c : FragmentCols)
  | addNoteFragmentTagQuery (c : TagCols)
  | createNoteTable
  | createNoteTagTable
  | createNoteFragmentTable
  | createNoteFragmentTagTable
  | selectAllNotes
  | ping
deriving DecidableEq, Repr

/-- What a call through the handle yields. -/
inductive Result
  | err (text : String)
  | noRows
  | row (id : Int)
  | notes (rows : List (Row NoteCols))
deriving DecidableEq, Repr

/-- What the backend does with one statement: it rejects it with an error text, or it
executes it; an executed insert reports its generated key as a result row
(`returnsRow = true`, a query with a returning clause) or reports no row. -/
inductive Reply
  | fail (text : String)
  | done (returnsRow : Bool)
deriving DecidableEq, Repr

/-- The handle and the database behind it. -/
structure Db where
  closed : Bool
  tables : List Table
  note : List (Row NoteCols)
  note_tag : List (Row TagCols)
  note_fragment : List (Row FragmentCols)
  note_fragment_tag : List (Row TagCols)
  note_seq : Int
  note_tag_seq : Int
  note_fragment_seq : Int
  note_fragment_tag_seq : Int
  script : List Reply
  trace : List (Stmt × Result)
deriving DecidableEq, Repr

/-- An insert into a table: the row gets the next key of the table's sequence. An insert
into a table that does not exist is rejected. -/
def Db.insertInto (db : Db) (returnsRow : Bool) : Stmt → Db × Result
  | .addNoteQuery c =>
    if Table.note ∈ db.tables then
      ({ db with note := db.note ++ [⟨db.note_seq, c⟩], note_seq := db.note_seq + 1 },
        if returnsRow then .row db.note_seq else .noRows)
    else (db, .err "pq: relation \"note\" does not exist")
  | .addNoteTagQuery c =>
    if Table.note_tag ∈ db.tables then
      ({ db with note_tag := db.note_tag ++ [⟨db.note_tag_seq, c⟩],
                 note_tag_seq := db.note_tag_seq + 1 },
        if returnsRow then .row db.note_tag_seq else .noRows)
    else (db, .err "pq: relation \"note_tag\" does not exist")
  | .addNoteFragmentQuery c =>
    if Table.note_fragment ∈ db.tables then
      ({ db with note_fragment := db.note_fragment ++ [⟨db.note_fragment_seq, c⟩],
                 note_fragment_seq := db.note_fragment_seq + 1 },
        if returnsRow then .row db.note_fragment_seq else .noRows)
    else (db, .err "pq: relation \"note_fragment\" does not exist")
  | .addNoteFragmentTagQuery c =>
    if Table.note_fragment_tag ∈ db.tables then
      ({ db with note_fragment_tag := db.note_fragment_tag ++ [⟨db.note_fragment_tag_seq, c⟩],
                 note_fragment_tag_seq := db.note_fragment_tag_seq + 1 },
        if returnsRow then .row db.note_fragment_tag_seq else .noRows)
    else (db, .err "pq: relation \"note_fragment_tag\" does not exist")
  | _ => (db, .noRows)

/-- A create-table statement: a table that exists already makes the backend fail with
its duplicate-object error; otherwise the table comes into being. -/
def Db.createIn (db : Db) (t : Table) : Db × Result :=
  if t ∈ db.tables then (db, .err ("pq: relation \"" ++ t.name ++ "\" already exists"))
  else ({ db with tables := db.tables ++ [t] }, .noRows)

/-- The backend executes a statement it has accepted. -/
def Db.execute (db : Db) (returnsRow : Bool) : Stmt → Db × Result
  | .createNoteTable => db.createIn .note
  | .createNoteTagTable => db.createIn .note_tag
  | .createNoteFragmentTable => db.createIn .note_fragment
  | .createNoteFragmentTagTable => db.createIn .note_fragment_tag
  | .selectAllNotes =>
    if Table.note ∈ db.tables then (db, .notes db.note)
    else (db, .err "pq: relation \"note\" does not exist")
  | .ping => (db, .noRows)
  | s => db.insertInto returnsRow s

/-- Append a call and its result to the log of the handle. -/
def Db.logged (db : Db) (s : Stmt) (r : Result) : Db :=
  { db with trace := db.trace ++ [(s, r)] }

/-- One call through the handle. A closed handle fails without reaching the backend;
otherwise the backend takes its next reply (an exhausted script means: execute, and
report the generated key). -/
def Db.call (db : Db) (s : Stmt) : Db × Result :=
  if db.closed then (db.logged s (.err "sql: database is closed"), .err "sql: database is closed")
  else
    match db.script.headD (.done true) with
    | .fail text => ({ db with script := db.script.tail }.logged s (.err text), .err text)
    | .done returnsRow =>
      let p := Db.execute { db with script := db.script.tail } returnsRow s
      (p.1.logged s p.2, p.2)

/-! ## The part of `database/sql` the store uses -/

/-- How a destination reaches `Scan`: `row.Scan(n.Id)` passes the value of the field,
`rows.Scan(&tmpNote.Id)` passes a pointer to it. -/
inductive Dest
  | value
  | pointer
deriving DecidableEq, Repr

/-- `(*sql.DB).QueryRow`: the statement is sent; errors are deferred to `Scan`. -/
def QueryRow (db : Db) (s : Stmt) : Db × Result :=
  db.call s

/-- `(*sql.Row).Scan` with one destination: the deferred query error if there is one,
`sql.ErrNoRows` for an empty result, and for a result row the conversion into the
destination, which fails for a destination that is not a pointer. The second component
is the value stored through the pointer, if any. A result set of notes comes back from
the select only, never from a statement whose row is scanned here. -/
def Scan (r : Result) (dest : Dest) : Option GoError × Option Int :=
  match r with
  | .err text => (some (.driver text), none)
  | .noRows => (some .ErrNoRows, none)
  | .notes _ => (some .ErrNoRows, none)
  | .row id =>
    match dest with
    | .value => (some .scanNotPointer, none)
    | .pointer => (none, some id)

/-- `(*sql.DB).Exec`: the error of the statement, nil when it was executed. -/
def Exec (db : Db) (s : Stmt) : Db × Option String :=
  match db.call s with
  | (db1, .err text) => (db1, some text)
  | (db1, _) => (db1, none)

/-- `strings.Contains` on the characters of the two strings. -/
def hasInfix (sub : List Char) : List Char → Bool
  | [] => sub.isPrefixOf []
  | c :: cs => sub.isPrefixOf (c :: cs) || hasInfix sub cs

/-- `strings.Contains(s, substr)`. -/
def strings_Contains (s substr : String) : Bool :=
  hasInfix substr.toList s.toList

/-! ## `dependencies.go` -/

/-- The conversion `int32(x)` of a 64-bit integer: the low 32 bits, read as a signed
number. -/
def int32 (x : Int) : Int :=
  (x + 2 ^ 31) % 2 ^ 32 - 2 ^ 31

/-- `TimestampNow`, at the instant whose Unix time is `unixNano` nanoseconds:
`Seconds: now.Unix()`, `Nanos: int32(now.UnixNano())`. -/
def TimestampNow (unixNano : Int) : Timestamp :=
  { Seconds := unixNano / 1000000000, Nanos := int32 unixNano }

/-- What one constructor call draws from its surroundings: the reading of the clock
(Unix nanoseconds) and the string of the fresh uuid. -/
structure Fresh where
  unixNano : Int
  uuid : String
deriving DecidableEq, Repr

/-- `NewNote`: id 0, the timestamp of now, a fresh guid, no fragments, no tags; the
other fields have their zero values. -/
def NewNote (f : Fresh) : Note :=
  { Id := 0, DateCreated := some (TimestampNow f.unixNano), NoteGuid := f.uuid,
    VisitGuid := "", AuthorGuid := "", PatientGuid := "", Type_ := 0, Status := 0,
    Fragments := [], Tags := [] }

/-- The code of `ehrpb.RecordStatus_INCOMPLETE`, `ehrpb.RecordPriority_NO_PRIORITY` and
`ehrpb.FragmentType_NO_TOPIC`; the enumerations are declared in another module and
only their being fixed numbers matters here. -/
structure EnumCodes where
  RecordStatus_INCOMPLETE : Int
  RecordPriority_NO_PRIORITY : Int
  FragmentType_NO_TOPIC : Int
deriving DecidableEq, Repr

/-- `NewNoteFragment`: id 0, the timestamp of now, a fresh guid, empty texts, the three
default enum codes, no tags; `NoteGuid` keeps its zero value. -/
def NewNoteFragment (codes : EnumCodes) (f : Fresh) : NoteFragment :=
  { Id := 0, DateCreated := some (TimestampNow f.unixNano), NoteFragmentGuid := f.uuid,
    NoteGuid := "", IssueGuid := "", Icd_10Code := "", Icd_10Long := "", Description := "",
    Status := codes.RecordStatus_INCOMPLETE, Priority := codes.RecordPriority_NO_PRIORITY,
    Topic := codes.FragmentType_NO_TOPIC, Content := "", Tags := [] }

/-! ## `postgresdb.go`: the store operations

Each method of `DbPostgres` is a function of the state `Db` of the handle in the
receiver's `db` field (set by `Initialize`). -/

/-- `n.DateCreated.GetSeconds()`: the getter is nil-safe. -/
def GetSeconds (t : Option Timestamp) : Int :=
  match t with
  | some ts => ts.Seconds
  | none => 0

/-- `n.DateCreated.GetNanos()`: the getter is nil-safe. -/
def GetNanos (t : Option Timestamp) : Int :=
  match t with
  | some ts => ts.Nanos
  | none => 0

/-- The arguments `AddNote` binds to `addNoteQuery`. -/
def noteCols (n : Note) : NoteCols :=
  { created_sec := GetSeconds n.DateCreated, created_nsec := GetNanos n.DateCreated,
    note_guid := n.NoteGuid, visit_guid := n.VisitGuid, author_guid := n.AuthorGuid,
    patient_guid := n.PatientGuid, type := n.Type_, status := n.Status }

/-- The arguments `AddNoteFragment` binds to `addNoteFragmentQuery`, given the
dereferenced timestamp. -/
def fragmentCols (nf : NoteFragment) (ts : Timestamp) : FragmentCols :=
  { created_sec := ts.Seconds, created_nsec := ts.Nanos, fragment_guid := nf.NoteFragmentGuid,
    note_guid := nf.NoteGuid, icd10_code := nf.Icd_10Code, icd10_long := nf.Icd_10Long,
    description := nf.Description, status := nf.Status, priority := nf.Priority,
    topic := nf.Topic, content := nf.Content }

/-- The test `err != nil && err != sql.ErrNoRows`. -/
def notNilNotNoRows (err : Option GoError) : Bool :=
  err ≠ none && err ≠ some GoError.ErrNoRows

namespace DbPostgres

/-- `AddNoteTag`: `QueryRow(addNoteTagQuery, noteGuid, tag)`, then `row.Scan(newId)` with
the local `newId` passed by value. -/
def AddNoteTag (db : Db) (noteGuid tag : String) : Db × (Int × Option GoError) :=
  let q := QueryRow db (.addNoteTagQuery ⟨noteGuid, tag⟩)
  let newId : Int := 0
  let scanErr := (Scan q.2 .value).1
  if notNilNotNoRows scanErr then
    (q.1, (0, scanErr.map (GoError.wrapf .ErrPostgresDbAddNoteTagFailedToGetNewId "")))
  else (q.1, (newId, none))

/-- `AddNoteFragmentTag`: as `AddNoteTag`, with `addNoteFragmentTagQuery`. -/
def AddNoteFragmentTag (db : Db) (noteGuid tag : String) : Db × (Int × Option GoError) :=
  let q := QueryRow db (.addNoteFragmentTagQuery ⟨noteGuid, tag⟩)
  let newId : Int := 0
  let scanErr := (Scan q.2 .value).1
  if notNilNotNoRows scanErr then
    (q.1, (0, scanErr.map (GoError.wrapf .ErrPostgresDbAddNoteTagFailedToGetNewId "")))
  else (q.1, (newId, none))

/-- The loop of `AddNoteFragment` over `nf.GetTags()`: each tag goes through
`d.AddNoteTag(nf.GetNoteFragmentGuid(), v)`; the first failure ends the loop. -/
def addFragmentTags (db : Db) (nf : NoteFragment) : List String → Db × Option GoError
  | [] => (db, none)
  | v :: rest =>
    let r := AddNoteTag db nf.NoteFragmentGuid v
    if notNilNotNoRows r.2.2 then
      (r.1, r.2.2.map
        (GoError.wrapf .ErrPostgresDbAddNoteFragmentFailedToAddNoteFragmentTagToDb ""))
    else addFragmentTags r.1 nf rest

/-- `AddNoteFragment`: the arguments are evaluated (`nf.DateCreated.Seconds` dereferences
the timestamp), the row is inserted, `row.Scan(nf.Id)` gets the field by value, then the
tags are inserted. On success it returns `nf.GetId()` and the guid. -/
def AddNoteFragment (db : Db) (nf : NoteFragment) :
    Db × Outcome (Int × String × Option GoError) :=
  match nf.DateCreated with
  | none => (db, .panic)
  | some ts =>
    let q := QueryRow db (.addNoteFragmentQuery (fragmentCols nf ts))
    let scanErr := (Scan q.2 .value).1
    if notNilNotNoRows scanErr then
      (q.1, .ret (0, "",
        scanErr.map (GoError.wrapf .ErrPostgresDbAddNoteFragmentFailedToGetNewId "")))
    else
      let t := addFragmentTags q.1 nf nf.Tags
      match t.2 with
      | some e => (t.1, .ret (0, nf.NoteFragmentGuid, some e))
      | none => (t.1, .ret (nf.Id, nf.NoteFragmentGuid, none))

/-- The loop of `AddNote` over `n.GetFragments()`. -/
def addFragments (db : Db) : List NoteFragment → Db × Outcome (Option GoError)
  | [] => (db, .ret none)
  | v :: rest =>
    match AddNoteFragment db v with
    | (db1, .panic) => (db1, .panic)
    | (db1, .exit msg) => (db1, .exit msg)
    | (db1, .ret (_, _, err)) =>
      if notNilNotNoRows err then
        (db1, .ret (err.map (GoError.wrapf .ErrPostgresDbAddNoteFailedToAddNoteFragments "")))
      else addFragments db1 rest

/-- The loop of `AddNote` over `n.GetTags()`. -/
def addNoteTags (db : Db) (n : Note) : List String → Db × Option GoError
  | [] => (db, none)
  | v :: rest =>
    let r := AddNoteTag db n.NoteGuid v
    if notNilNotNoRows r.2.2 then
      (r.1, r.2.2.map (GoError.wrapf .ErrPostgresDbAddNoteFailedToAddNoteTagToDb ""))
    else addNoteTags r.1 n rest

/-- `AddNote`: the note row, `row.Scan(n.Id)` with the field passed by value, the
fragments, the tags; on success it returns `n.Id`. -/
def AddNote (db : Db) (n : Note) : Db × Outcome (Int × Option GoError) :=
  let q := QueryRow db (.addNoteQuery (noteCols n))
  let scanErr := (Scan q.2 .value).1
  if notNilNotNoRows scanErr then
    (q.1, .ret (0, scanErr.map (GoError.wrapf .ErrPostgresDbAddNoteFailedToGetNewId "")))
  else
    match addFragments q.1 n.Fragments with
    | (db1, .panic) => (db1, .panic)
    | (db1, .exit msg) => (db1, .exit msg)
    | (db1, .ret (some e)) => (db1, .ret (0, some e))
    | (db1, .ret none) =>
      match addNoteTags db1 n n.Tags with
      | (db2, some e) => (db2, .ret (0, some e))
      | (db2, none) => (db2, .ret (n.Id, none))

/-- A value that an `int64` destination can hold. -/
def fitsInt64 (x : Int) : Bool :=
  decide (-9223372036854775808 ≤ x) && decide (x ≤ 9223372036854775807)

/-- A value that an `int32` destination can hold. -/
def fitsInt32 (x : Int) : Bool :=
  decide (-2147483648 ≤ x) && decide (x ≤ 2147483647)

/-- The first column of a `note` row, in the order of `rows.Scan`, whose value does not
fit its destination: `Id` and `DateCreated.Seconds` are `int64`; `DateCreated.Nanos`,
`Type` and `Status` are 32-bit. The four guid columns go into strings. -/
def firstMisfit (r : Row NoteCols) : Option Nat :=
  if !fitsInt64 r.id then some 0
  else if !fitsInt64 r.cols.created_sec then some 1
  else if !fitsInt32 r.cols.created_nsec then some 2
  else if !fitsInt32 r.cols.type then some 7
  else if !fitsInt32 r.cols.status then some 8
  else none

/-- The `rows.Scan` of `AllNotes` for one row: the nine columns are stored through
pointers into `NewNote()`; a column that does not fit its destination makes the scan
fail. -/
def scanNote (f : Fresh) (r : Row NoteCols) : Except GoError Note :=
  match firstMisfit r with
  | some i => .error (.scanOutOfRange i)
  | none =>
    .ok { NewNote f with
      Id := r.id,
      DateCreated := some { Seconds := r.cols.created_sec, Nanos := r.cols.created_nsec },
      NoteGuid := r.cols.note_guid, VisitGuid := r.cols.visit_guid,
      AuthorGuid := r.cols.author_guid, PatientGuid := r.cols.patient_guid,
      Type_ := r.cols.type, Status := r.cols.status }

/-- The loop of `AllNotes` over the result rows; `k` counts the rows seen so far. A
failed scan ends the loop and the notes gathered so far are dropped. -/
def scanNotes (fresh : Nat → Fresh) (k : Nat) : List (Row NoteCols) → Except GoError (List Note)
  | [] => .ok []
  | r :: rest =>
    match scanNote (fresh k) r with
    | .error e => .error e
    | .ok m =>
      match scanNotes fresh (k + 1) rest with
      | .error e => .error e
      | .ok ms => .ok (m :: ms)

/-- `AllNotes`: `SELECT * FROM note;`, one `NewNote()` per row filled by `rows.Scan`; an
error of the query or of a scan is returned with a nil list. `fresh k` is what the
`NewNote()` of row `k` draws. -/
def AllNotes (fresh : Nat → Fresh) (db : Db) : Db × (List Note × Option GoError) :=
  match db.call .selectAllNotes with
  | (db1, .err text) => (db1, ([], some (.driver text)))
  | (db1, .notes rows) =>
    match scanNotes fresh 0 rows with
    | .error e => (db1, ([], some e))
    | .ok notes => (db1, (notes, none))
  | (db1, _) => (db1, ([], none))

/-- `fmt.Sprintf("%v", err)` for the error of `Exec`: the text of the error, and
`<nil>` for a nil error. -/
def sprintErr (err : Option String) : String :=
  match err with
  | some text => text
  | none => "<nil>"

/-- `createTable`: the statement is executed; an error whose text contains
`already exists` becomes `ErrPostgresDbInitTableAlreadyExistsErr`, any other error is
wrapped in `ErrPostgresDbCreateTableFails`. -/
def createTable (db : Db) (query : Stmt) : Db × Option GoError :=
  let r := Exec db query
  let tableExistsError := strings_Contains (sprintErr r.2) "already exists"
  if tableExistsError then
    (r.1, some (.sentinel .ErrPostgresDbInitTableAlreadyExistsErr))
  else
    match r.2 with
    | some text => (r.1, some (.wrapf .ErrPostgresDbCreateTableFails "" (.driver text)))
    | none => (r.1, none)

/-- The note the marked block at the end of `createSchema` builds: two tags, and two
fragments of which the second gets the tags of the first followed by its own. -/
def tmpNote (codes : EnumCodes) (fresh : Nat → Fresh) : Note :=
  let tmpNote := { NewNote (fresh 0) with Tags := [] ++ ["note1Tag1", "note1Tag2"] }
  let tmpFrag := { NewNoteFragment codes (fresh 1) with
    NoteGuid := tmpNote.NoteGuid, Tags := [] ++ ["frag1Tag1", "frag1Tag2"] }
  let tmpFrag2 := { NewNoteFragment codes (fresh 2) with
    NoteGuid := tmpNote.NoteGuid, Tags := tmpFrag.Tags ++ ["frag2Tag1", "frag2Tag2"] }
  { tmpNote with Fragments := tmpNote.Fragments ++ [tmpFrag, tmpFrag2] }

end DbPostgres

/-- `notNilNotTableExists`. -/
def notNilNotTableExists (err : Option GoError) : Bool :=
  err ≠ none && err ≠ some (GoError.sentinel .ErrPostgresDbInitTableAlreadyExistsErr)

namespace DbPostgres

/-- The block of `createSchema` after the four tables, marked `TODO: Remove this`: it
adds the temporary note, discards what `AddNote` returns, reads all notes and prints them. -/
def createSchemaTail (codes : EnumCodes) (fresh : Nat → Fresh) (db : Db) :
    Db × Outcome (Option GoError) :=
  match AddNote db (tmpNote codes fresh) with
  | (db1, .panic) => (db1, .panic)
  | (db1, .exit msg) => (db1, .exit msg)
  | (db1, .ret _) => ((AllNotes (fun k => fresh (3 + k)) db1).1, .ret none)

/-- `createSchema`: the four tables in turn, each through `createTable`; an error that
`notNilNotTableExists` accepts ends the function; then the marked block; then nil. The
calls `log.Warn`, `log.Println` and `fmt.Println` write a line and change nothing here. -/
def createSchema (codes : EnumCodes) (fresh : Nat → Fresh) (db : Db) :
    Db × Outcome (Option GoError) :=
  let r1 := createTable db .createNoteTable
  if notNilNotTableExists r1.2 then
    (r1.1, .ret (r1.2.map
      (GoError.wrapf .ErrPostgresDbCreateSchemaFails "Target table: note. Error: ")))
  else
    let r2 := createTable r1.1 .createNoteTagTable
    if notNilNotTableExists r2.2 then
      (r2.1, .ret (r2.2.map
        (GoError.wrapf .ErrPostgresDbCreateSchemaFails "Target table: note_tag. Error: ")))
    else
      let r3 := createTable r2.1 .createNoteFragmentTable
      if notNilNotTableExists r3.2 then
        (r3.1, .ret (r3.2.map
          (GoError.wrapf .ErrPostgresDbCreateSchemaFails
            "Target table: note_fragment. Error: ")))
      else
        let r4 := createTable r3.1 .createNoteFragmentTagTable
        if notNilNotTableExists r4.2 then
          (r4.1, .ret (r4.2.map
            (GoError.wrapf .ErrPostgresDbCreateSchemaFails
              "Target table: note_fragment_tag. Error: ")))
        else createSchemaTail codes fresh r4.1

end DbPostgres

/-! ## `config.go` -/

/-- The configuration record. -/
structure Config where
  Version : String
  LogPath : String
  ServerProtocol : String
  ServerIp : String
  ServerPort : String
  DbIp : String
  DbPort : String
  DbUsername : String
  DbPassword : String
  DbName : String
  DbSslMode : String
deriving DecidableEq, Repr

/-- The value `&Config{}`: every field is the empty string. -/
def Config.zero : Config :=
  { Version := "", LogPath := "", ServerProtocol := "", ServerIp := "", ServerPort := "",
    DbIp := "", DbPort := "", DbUsername := "", DbPassword := "", DbName := "",
    DbSslMode := "" }

/-- The test `configIsEmpty` of `LoadConfiguration`, in the order of the source. -/
def configIsEmpty (conf : Config) : Bool :=
  conf.DbSslMode == "" || conf.DbIp == "" || conf.DbPort == "" || conf.ServerPort == "" ||
    conf.ServerProtocol == "" || conf.ServerIp == "" || conf.Version == "" ||
    conf.LogPath == "" || conf.DbName == "" || conf.DbPassword == "" || conf.DbUsername == ""

/-- `LoadConfiguration`. The file system (`ioutil.ReadFile`), the decoder
(`json.Unmarshal` into a zero `Config`) and the helper `NoteClerkErrWrap`, which is
declared outside the sources at hand, are parameters. In the third failure the variable
`err` that is passed to the helper is nil, the decoder having succeeded. -/
def LoadConfiguration (ReadFile : String → Except GoError String)
    (Unmarshal : String → Except GoError Config)
    (NoteClerkErrWrap : Option GoError → Sentinel → Option GoError)
    (path : String) : Config × Option GoError :=
  match ReadFile path with
  | .error err => (Config.zero, NoteClerkErrWrap (some err) .ErrLoadConfigurationFailsReadFile)
  | .ok file =>
    match Unmarshal file with
    | .error err =>
      (Config.zero, NoteClerkErrWrap (some err) .ErrLoadConfigurationFailsJsonMarshal)
    | .ok conf =>
      if configIsEmpty conf then
        (Config.zero,
          NoteClerkErrWrap none .ErrLoadConfigurationAbortsAfterJsonMarshalDueToEmptyConfig)
      else (conf, none)

/-- Modelled from the spec: the helper `NoteClerkErrWrap`, which is declared outside the
sources at hand. Section 6 has a load fail with one of three distinct failure kinds:
the result is a non-nil error of the given kind, carrying the underlying error when
there is one. -/
def NoteClerkErrWrap (err : Option GoError) (kind : Sentinel) : Option GoError :=
  match err with
  | some e => some (.wrapf kind "" e)
  | none => some (.sentinel kind)

/-! ## `postgresdb.go`: initialization -/

/-- The receiver: its `db` field, nil before a successful ping. -/
structure DbPostgres where
  db : Option Db
deriving DecidableEq, Repr

/-- What a call of `Initialize` leaves behind: the receiver, the handle `sql.Open`
produced (if it produced one) in the state it has when the call has ended, and how the
call ended: the returned handle and error. The receiver's field and the returned handle
are pointers to the opened handle, so they are given in that same final state. -/
structure InitResult where
  recv : DbPostgres
  opened : Option Db
  out : Outcome (Option Db × Option GoError)
deriving DecidableEq, Repr

/-- `(*sql.DB).Close`. -/
def Db.Close (db : Db) : Db :=
  { db with closed := true }

/-- The connection string `Initialize` formats from the configuration. -/
def connStr (config : Config) : String :=
  "user=" ++ config.DbUsername ++ " password=" ++ config.DbPassword ++ " host=" ++
    config.DbIp ++ " dbname=" ++ config.DbName ++ " sslmode=" ++ config.DbSslMode ++
    " port=" ++ config.DbPort

namespace DbPostgres

/-- `Initialize`, for a non-nil configuration. `sqlOpen` is `sql.Open("postgres", _)`:
it yields a handle or an error text. `defer db.Close()` is registered once the handle
exists and runs when the function ends, on every path. -/
def Initialize (d : DbPostgres) (config : Config) (sqlOpen : String → Except String Db)
    (codes : EnumCodes) (fresh : Nat → Fresh) : InitResult :=
  match sqlOpen (connStr config) with
  | .error text =>
    { recv := d, opened := none,
      out := .ret (none, some (.wrapf .ErrPostgresDbInitFailedToOpenConn "" (.driver text))) }
  | .ok db =>
    match Exec db .ping with
    | (db1, some text) =>
      { recv := d, opened := some db1.Close,
        out := .ret (none, some (.wrapf .ErrPostgresDbInitFailedToPingDb "" (.driver text))) }
    | (db1, none) =>
      match createSchema codes fresh db1 with
      | (db2, .panic) => { recv := ⟨some db2.Close⟩, opened := some db2.Close, out := .panic }
      | (db2, .exit msg) => { recv := ⟨some db2⟩, opened := some db2, out := .exit msg }
      | (db2, .ret (some schemaErr)) =>
        { recv := ⟨some db2.Close⟩, opened := some db2.Close,
          out := .ret (none,
            some (.wrapf .ErrPostgresDbInitFailedToCreateSchema "" schemaErr)) }
      | (db2, .ret none) =>
        { recv := ⟨some db2.Close⟩, opened := some db2.Close,
          out := .ret (some db2.Close, none) }

end DbPostgres

/-! ## `postgresdb.go`: the operations that are placeholders -/

/-- The logger `log`, a value of the type `GmdLog` declared outside the sources at
hand: what a call of its `Fatal` does. -/
structure GmdLog where
  Fatal : String → Outcome Unit

/-- Modelled from the spec: `GmdLog.Fatal`, declared outside the sources at hand.
Section 4.1 calls the placeholder "an explicit not implemented fatal condition" and
section 9 calls it process-terminating: the call ends the process with the message. -/
def fatalLog : GmdLog :=
  { Fatal := fun msg => .exit msg }

/-- The statements after a call end the function when the call did not return. -/
def Outcome.andThen {α β : Type} (o : Outcome α) (k : α → Outcome β) : Outcome β :=
  match o with
  | .ret a => k a
  | .panic => .panic
  | .exit msg => .exit msg

/-- The filters of the find operations; their fields play no part in the placeholders. -/
structure NoteFragmentFindFilter where
  NoteFragmentGuid : String
deriving DecidableEq, Repr

namespace DbPostgres

/-- `UpdateNoteFragment`: `log.Fatal("Not implemented.")`, then `return nil`. -/
def UpdateNoteFragment (log : GmdLog) (_n : NoteFragment) : Outcome (Option GoError) :=
  (log.Fatal "Not implemented.").andThen fun _ => .ret none

/-- `DeleteNoteFragment`: `log.Fatal("Not implemented.")`, then `return nil`. -/
def DeleteNoteFragment (log : GmdLog) (_id : Int) : Outcome (Option GoError) :=
  (log.Fatal "Not implemented.").andThen fun _ => .ret none

/-- `GetNoteFragmentsById`: `log.Fatal("Not implemented.")`, then `return nil, nil`. -/
def GetNoteFragmentsById (log : GmdLog) (_id : Int) :
    Outcome (Option NoteFragment × Option GoError) :=
  (log.Fatal "Not implemented.").andThen fun _ => .ret (none, none)

/-- `FindNoteFragments`: `log.Fatal("Not implemented.")`, then `return nil, nil`. -/
def FindNoteFragments (log : GmdLog) (_filter : NoteFragmentFindFilter) :
    Outcome (List NoteFragment × Option GoError) :=
  (log.Fatal "Not implemented.").andThen fun _ => .ret ([], none)

/-- `AllNoteFragments`: `log.Fatal("Not implemented.")`, then `return nil, nil`. -/
def AllNoteFragments (log : GmdLog) : Outcome (List NoteFragment × Option GoError) :=
  (log.Fatal "Not implemented.").andThen fun _ => .ret ([], none)

end DbPostgres

/-! ## The service boundary

`Server` and `MockDb` are exercised by `server_test.go`; their code is not part of
the sources at hand. -/

/-- The status codes of the response envelope. -/
inductive StatusCodes
  | OK
  | NOT_FOUND
  | CONFLICT
  | NOT_MODIFIED
deriving DecidableEq, Repr

/-- The request of `CreateNote`. -/
structure CreateNoteRequest where
  Note : Note
deriving DecidableEq, Repr

/-- The response of `CreateNote`: a status and the entity. -/
structure CreateNoteResponse where
  Status : StatusCodes
  Note : Note
deriving DecidableEq, Repr

/-- The error value of a service operation: a request that fails validation, or a
fault of the store. -/
inductive ServiceError
  | validation
  | store (e : GoError)
deriving DecidableEq, Repr

/-- Modelled from the spec: the Record Store contract of section 4.1, as far as Create
uses it: `AddNote(note) -> (id, error)` over the state of a backend. -/
structure RecordStore (S : Type) where
  AddNote : S → Note → S × (Int × Option GoError)

/-- Modelled from the spec: the in-memory store of section 4.3, which holds its notes in
an ordered collection (`mockDb.db` in the tests). -/
structure MockDb where
  db : List Note
deriving DecidableEq, Repr

/-- Modelled from the spec: the fragment rule of sections 3 and 8 in the in-memory store:
a fragment with id 0 receives a store-assigned id (here its position, counted from 1), a
fragment with a pre-assigned id keeps it. -/
def MockDb.assignFragmentIds (k : Nat) : List NoteFragment → List NoteFragment
  | [] => []
  | nf :: rest =>
    (if nf.Id = 0 then { nf with Id := (k : Int) + 1 } else nf) ::
      MockDb.assignFragmentIds (k + 1) rest

/-- Modelled from the spec: `MockDb.AddNote`, section 4.3: the note is appended to the
collection under a fresh non-zero id (the new length of the collection). -/
def MockDb.AddNote (m : MockDb) (n : Note) : MockDb × (Int × Option GoError) :=
  let id : Int := (m.db.length : Int) + 1
  (⟨m.db ++ [{ n with Id := id, Fragments := MockDb.assignFragmentIds 0 n.Fragments }]⟩,
    (id, none))

/-- The in-memory store behind the contract. -/
def MockDb.store : RecordStore MockDb :=
  { AddNote := MockDb.AddNote }

/-- Modelled from the spec: the stamping of the fragments in Create, sections 3 and 4.4:
a fragment that lacks a pre-assigned id gets the creation timestamp and a new guid. -/
def stampFragments (fresh : Nat → Fresh) (k : Nat) : List NoteFragment → List NoteFragment
  | [] => []
  | nf :: rest =>
    (if nf.Id = 0 then
      { nf with DateCreated := some (TimestampNow (fresh k).unixNano),
                NoteFragmentGuid := (fresh k).uuid }
    else nf) :: stampFragments fresh (k + 1) rest

namespace Server

/-- Modelled from the spec: `Server.CreateNote`, section 4.4 (Create) and the tests
`TestNoteClerkServer_CreateNote_WithNonZeroIdIsRejected` and
`TestNoteClerkServer_CreateNote_WithNoteThatAlreadyHasId_ReturnsError`. A request whose
note carries a non-zero id is rejected with a validation error, a nil response and no
call of the store. Otherwise the note gets its creation timestamp and a new guid, its
fragments are stamped, the store persists it, and the populated entity is returned with
status OK; a fault of the store is returned as the error. -/
def CreateNote {S : Type} (store : RecordStore S) (s : S) (fresh : Nat → Fresh)
    (req : CreateNoteRequest) : S × (Option CreateNoteResponse × Option ServiceError) :=
  if req.Note.Id ≠ 0 then (s, (none, some .validation))
  else
    let note : Note :=
      { req.Note with
        DateCreated := some (TimestampNow (fresh 0).unixNano),
        NoteGuid := (fresh 0).uuid,
        Fragments := stampFragments fresh 1 req.Note.Fragments }
    match store.AddNote s note with
    | (s1, (_, some e)) => (s1, (none, some (.store e)))
    | (s1, (id, none)) =>
      (s1, (some { Status := .OK, Note := { note with Id := id } }, none))

end Server

/-! ## Inputs used in the examples -/

/-- A handle that is open, with the four tables in place and empty, the sequences at 1,
and a backend that executes every statement and reports generated keys. -/
def Db.ready : Db :=
  { closed := false,
    tables := [.note, .note_tag, .note_fragment, .note_fragment_tag],
    note := [], note_tag := [], note_fragment := [], note_fragment_tag := [],
    note_seq := 1, note_tag_seq := 1, note_fragment_seq := 1, note_fragment_tag_seq := 1,
    script := [], trace := [] }

/-- A handle to a database without tables. -/
def Db.blank : Db :=
  { Db.ready with tables := [] }

/-- A backend that executes the coming `k` statements and reports no row for them,
as it does for an insert without a returning clause. -/
def Db.quiet (k : Nat) : Db :=
  { Db.ready with script := List.replicate k (.done false) }

/-- A fragment with one tag. -/
def sampleFragment : NoteFragment :=
  { Id := 7, DateCreated := some ⟨10, 20⟩, NoteFragmentGuid := "f1", NoteGuid := "n1",
    IssueGuid := "", Icd_10Code := "", Icd_10Long := "", Description := "", Status := 0,
    Priority := 0, Topic := 0, Content := "", Tags := ["t1"] }

/-- A note with one fragment and one tag. -/
def sampleNote : Note :=
  { Id := 7, DateCreated := some ⟨10, 20⟩, NoteGuid := "n1", VisitGuid := "v", AuthorGuid := "a",
    PatientGuid := "p", Type_ := 0, Status := 0, Fragments := [sampleFragment],
    Tags := ["t2"] }

/-- What the constructors draw in the examples. -/
def sampleFresh (k : Nat) : Fresh :=
  { unixNano := 1500000000, uuid := "u" ++ toString k }

/-- The enum codes in the examples. -/
def sampleCodes : EnumCodes :=
  { RecordStatus_INCOMPLETE := 0, RecordPriority_NO_PRIORITY := 0, FragmentType_NO_TOPIC := 0 }

/-- A configuration with every field set. -/
def sampleConfig : Config :=
  { Version := "1", LogPath := "log", ServerProtocol := "tcp", ServerIp := "localhost",
    ServerPort := "50051", DbIp := "localhost", DbPort := "5432", DbUsername := "clerk",
    DbPassword := "pw", DbName := "notes", DbSslMode := "disable" }

/-- A file system in which every path can be read. -/
def sampleReadFile (_path : String) : Except GoError String :=
  .ok "content"

/-- A decoder that yields the sample configuration. -/
def sampleUnmarshal (_file : String) : Except GoError Config :=
  .ok sampleConfig

/-- A create request whose note carries the id 1. -/
def sampleRequest : CreateNoteRequest :=
  { Note := { sampleNote with Id := 1 } }

/-- A configuration in which only the password is empty. -/
def configNoPassword : Config :=
  { sampleConfig with DbPassword := "" }

/-- A decoder that yields the configuration without a password. -/
def unmarshalNoPassword (_file : String) : Except GoError Config :=
  .ok configNoPassword

/-! ## The driver: how `lib/pq` reads a connection string

`postgresdb.go` imports `github.com/lib/pq`, so the handle of `sql.Open("postgres", _)`
connects through that driver. The driver takes the connection string apart with its
`parseOpts` (key, `=`, value; values are plain words, or quoted with `'`; `\` escapes one
character) and then checks `sslmode`. Both happen when the first connection is made, at
the ping. -/

/-- `unicode.IsSpace`: the white space characters of Unicode. -/
def unicode_IsSpace (c : Char) : Bool :=
  (decide (9 ≤ c.toNat) && decide (c.toNat ≤ 13)) || c.toNat == 32 || c.toNat == 0x85 ||
    c.toNat == 0xA0 || c.toNat == 0x1680 ||
    (decide (0x2000 ≤ c.toNat) && decide (c.toNat ≤ 0x200A)) || c.toNat == 0x2028 ||
    c.toNat == 0x2029 || c.toNat == 0x202F || c.toNat == 0x205F || c.toNat == 0x3000

/-- The errors with which the driver turns a connection string down before it talks to
a server: the three errors of `parseOpts` and the error of the `sslmode` check. -/
inductive PqError
  | missingEquals (key : String)
  | missingAfterBackslash
  | unterminatedQuote
  | unsupportedSslmode (mode : String)
deriving DecidableEq, Repr

/-- The text of a driver error, for a key or mode without characters that `%q` escapes. -/
def PqError.text : PqError → String
  | .missingEquals key =>
    "missing \"=\" after \"" ++ key ++ "\" in connection info string\""
  | .missingAfterBackslash => "missing character after backslash"
  | .unterminatedQuote => "unterminated quoted string literal in connection string"
  | .unsupportedSslmode mode =>
    "pq: unsupported sslmode \"" ++ mode ++
      "\"; only \"require\" (default), \"verify-full\", \"verify-ca\", and \"disable\" supported"

/-- Where the scanner of `parseOpts` stands: before a key, in a key, after a key and
before its `=`, after the `=`, in a plain value, in a quoted value. A value carries
whether the character before was an escaping backslash. -/
inductive PqState
  | start
  | key (k : List Char)
  | beforeEq (k : List Char)
  | afterEq (k : List Char)
  | value (k v : List Char) (escaped : Bool)
  | quoted (k v : List Char) (escaped : Bool)
deriving DecidableEq, Repr

/-- `parseOpts` of `lib/pq` as one pass over the characters: the loops of the Go code
are the states. An option set twice keeps its later value, so the pairs are kept in
order and read from the end. -/
def pq_parse : PqState → List Char → List (String × String) →
    Except PqError (List (String × String))
  | .start, [], o => .ok o
  | .key k, [], _ => .error (.missingEquals (String.mk k))
  | .beforeEq k, [], _ => .error (.missingEquals (String.mk k))
  | .afterEq k, [], o => .ok (o ++ [(String.mk k, "")])
  | .value k v false, [], o => .ok (o ++ [(String.mk k, String.mk v)])
  | .value _ _ true, [], _ => .error .missingAfterBackslash
  | .quoted _ _ _, [], _ => .error .unterminatedQuote
  | .start, c :: rest, o =>
    if unicode_IsSpace c then pq_parse .start rest o
    else if c = '=' then pq_parse (.afterEq []) rest o
    else pq_parse (.key [c]) rest o
  | .key k, c :: rest, o =>
    if c = '=' then pq_parse (.afterEq k) rest o
    else if unicode_IsSpace c then pq_parse (.beforeEq k) rest o
    else pq_parse (.key (k ++ [c])) rest o
  | .beforeEq k, c :: rest, o =>
    if unicode_IsSpace c then pq_parse (.beforeEq k) rest o
    else if c = '=' then pq_parse (.afterEq k) rest o
    else .error (.missingEquals (String.mk k))
  | .afterEq k, c :: rest, o =>
    if unicode_IsSpace c then pq_parse (.afterEq k) rest o
    else if c = '\'' then pq_parse (.quoted k [] false) rest o
    else if c = '\\' then pq_parse (.value k [] true) rest o
    else pq_parse (.value k [c] false) rest o
  | .value k v true, c :: rest, o => pq_parse (.value k (v ++ [c]) false) rest o
  | .value k v false, c :: rest, o =>
    if unicode_IsSpace c then pq_parse .start rest (o ++ [(String.mk k, String.mk v)])
    else if c = '\\' then pq_parse (.value k v true) rest o
    else pq_parse (.value k (v ++ [c]) false) rest o
  | .quoted k v true, c :: rest, o => pq_parse (.quoted k (v ++ [c]) false) rest o
  | .quoted k v false, c :: rest, o =>
    if c = '\'' then pq_parse .start rest (o ++ [(String.mk k, String.mk v)])
    else if c = '\\' then pq_parse (.quoted k v true) rest o
    else pq_parse (.quoted k (v ++ [c]) false) rest o

/-- `parseOpts(name, o)` on the options given in the string alone. -/
def pq_parseOpts (name : String) : Except PqError (List (String × String)) :=
  pq_parse .start name.toList []

/-- The value of an option after parsing: the last one given. -/
def pq_option (o : List (String × String)) (key : String) : Option String :=
  ((o.filter fun p => p.1 == key).getLast?).map fun p => p.2

/-- The modes the `sslmode` check of the driver knows. -/
def pq_sslmodes : List String :=
  ["", "require", "verify-ca", "verify-full", "disable"]

/-- The `sslmode` check of the driver on the parsed options: a mode it does not know is
an error; no mode given means `require`. -/
def pq_sslError (o : List (String × String)) : Option PqError :=
  match pq_option o "sslmode" with
  | some mode => if mode ∈ pq_sslmodes then none else some (.unsupportedSslmode mode)
  | none => none

/-- The error, if any, with which the driver turns down a connection string in the
key=value form, whatever the server and the environment are: a string that does not
parse, or one that sets `sslmode` to a mode the driver does not know. Nothing is said
about a string in the URL form, which the driver reads in another way. -/
def pqRefusal (name : String) : Option PqError :=
  if "postgres://".toList.isPrefixOf name.toList ||
      "postgresql://".toList.isPrefixOf name.toList then none
  else
    match pq_parseOpts name with
    | .error e => some e
    | .ok o => pq_sslError o

/-- The handles come from `lib/pq`: a handle for a connection string that the driver
turns down fails its ping. -/
def PqDriver (sqlOpen : String → Except String Db) : Prop :=
  ∀ name db, sqlOpen name = .ok db → (pqRefusal name).isSome = true →
    ∃ text, (db.call .ping).2 = .err text

/-- The options the driver connects with: those of the connection string over the
defaults of the driver for host and port (no `PG...` variable is set). -/
def pq_withDefaults (o : List (String × String)) : List (String × String) :=
  [("host", "localhost"), ("port", "5432")] ++ o

/-- A handle whose connection cannot be made: its next call, the ping of `Initialize`,
fails with the error of the driver. -/
def Db.unconnected (text : String) : Db :=
  { Db.blank with script := [.fail text] }

/-- `sql.Open("postgres", name)` with `lib/pq`, for a connection string in the key=value
form. The open itself yields a handle; the connection is made at the first call, in the
order of the driver: the string is parsed, the server is dialled with the parsed options
(`server` gives the database behind a connection that is accepted, or the error of the
dial or of the startup), then `sslmode` is checked. -/
def pqOpen (server : List (String × String) → Except String Db) (name : String) :
    Except String Db :=
  match pq_parseOpts name with
  | .error e => .ok (Db.unconnected e.text)
  | .ok o =>
    match server (pq_withDefaults o) with
    | .error text => .ok (Db.unconnected text)
    | .ok db =>
      match pq_sslError o with
      | some e => .ok (Db.unconnected e.text)
      | none => .ok db

/-- A server on `localhost:5432` with the database `notes`, no tables yet, and `trust`
authentication: it takes a connection for that database whatever the user and the
password are. No other host can be reached. -/
def trustServer (o : List (String × String)) : Except String Db :=
  if pq_option o "host" = some "localhost" ∧ pq_option o "port" = some "5432" ∧
      pq_option o "dbname" = some "notes" then .ok Db.blank
  else
    .error ("dial tcp: lookup " ++ (pq_option o "host").getD "" ++ ": no such host")

/-! ## Reading the log of a handle -/

/-- The calls made through the handle between two of its states. -/
def Db.since (before after : Db) : List (Stmt × Result) :=
  after.trace.drop before.trace.length

/-- A result that `Scan` into a by-value destination lets pass: no error, or
`sql.ErrNoRows`. -/
def Result.quiet (r : Result) : Bool :=
  !notNilNotNoRows (Scan r .value).1

/-- The statements of a log that the backend executed (those whose result is no error). -/
def executed : List (Stmt × Result) → List Stmt
  | [] => []
  | (_, .err _) :: rest => executed rest
  | (s, _) :: rest => s :: executed rest

/-- The rows of `note` a list of statements inserts. -/
def noteColsOf : List Stmt → List NoteCols
  | [] => []
  | .addNoteQuery c :: rest => c :: noteColsOf rest
  | _ :: rest => noteColsOf rest

/-- The rows of `note_tag` a list of statements inserts. -/
def noteTagColsOf : List Stmt → List TagCols
  | [] => []
  | .addNoteTagQuery c :: rest => c :: noteTagColsOf rest
  | _ :: rest => noteTagColsOf rest

/-- The rows of `note_fragment` a list of statements inserts. -/
def fragmentColsOf : List Stmt → List FragmentCols
  | [] => []
  | .addNoteFragmentQuery c :: rest => c :: fragmentColsOf rest
  | _ :: rest => fragmentColsOf rest

/-- The rows of `note_fragment_tag` a list of statements inserts. -/
def fragmentTagColsOf : List Stmt → List TagCols
  | [] => []
  | .addNoteFragmentTagQuery c :: rest => c :: fragmentTagColsOf rest
  | _ :: rest => fragmentTagColsOf rest

/-- The inserts of a list of tags for one owner, in list order, each the statement of
`AddNoteTag`. -/
def tagPlan (owner : String) (tags : List String) : List Stmt :=
  tags.map fun t => Stmt.addNoteTagQuery ⟨owner, t⟩

/-- The inserts of one fragment through `AddNoteFragment`: its row, then its tags. A
fragment without a timestamp sends nothing. -/
def fragmentPlan (nf : NoteFragment) : List Stmt :=
  match nf.DateCreated with
  | some ts => Stmt.addNoteFragmentQuery (fragmentCols nf ts) :: tagPlan nf.NoteFragmentGuid nf.Tags
  | none => []

/-- The inserts of the fragments of a note, in list order. -/
def fragmentsPlan : List NoteFragment → List Stmt
  | [] => []
  | nf :: rest => fragmentPlan nf ++ fragmentsPlan rest

/-- The inserts of a note in the order the claim gives: the note row, the fragments in
list order, the tags of the note in list order. -/
def notePlan (n : Note) : List Stmt :=
  Stmt.addNoteQuery (noteCols n) :: (fragmentsPlan n.Fragments ++ tagPlan n.NoteGuid n.Tags)

/-- Between the states `a` and `b` of a handle the calls `l` were made: the log has
grown by `l`, and each table has grown by exactly the rows of the inserts in `l` that
the backend executed, in their order; no row that was there has gone or changed. -/
structure Grows (a b : Db) (l : List (Stmt × Result)) : Prop where
  trace : b.trace = a.trace ++ l
  closed : b.closed = a.closed
  note : ∃ x, b.note = a.note ++ x ∧ x.map (fun r => r.cols) = noteColsOf (executed l)
  note_tag : ∃ x, b.note_tag = a.note_tag ++ x ∧
    x.map (fun r => r.cols) = noteTagColsOf (executed l)
  note_fragment : ∃ x, b.note_fragment = a.note_fragment ++ x ∧
    x.map (fun r => r.cols) = fragmentColsOf (executed l)
  note_fragment_tag : ∃ x, b.note_fragment_tag = a.note_fragment_tag ++ x ∧
    x.map (fun r => r.cols) = fragmentTagColsOf (executed l)

/-- Every call of the log passed: its result was no error to the caller. -/
def Clean (l : List (Stmt × Result)) : Prop :=
  ∀ e ∈ l, e.2.quiet = true

/-- The log ends with a call that did not pass, every call before it passed, and the
error `e` carries, at the bottom of its annotations, the error of that last call. -/
def StoppedAt (l : List (Stmt × Result)) (e : GoError) : Prop :=
  ∃ l₀ s r, l = l₀ ++ [(s, r)] ∧ Clean l₀ ∧ r.quiet = false ∧ (Scan r .value).1 = some e.root

/-- The result of a call with everything but the error dropped. -/
def Outcome.map {α β : Type} (f : α → β) : Outcome α → Outcome β
  | .ret a => .ret (f a)
  | .panic => .panic
  | .exit msg => .exit msg

/-- An operation that took the handle from `a` to `b` followed the plan: the calls it
made are an initial part of the plan, in its order; when it returned nil all of them
passed and they are the whole plan; when it returned an error it stopped at the first
call that did not pass; when it panicked all calls so far had passed. -/
def Follows (a b : Db) (plan : List Stmt) (o : Outcome (Option GoError)) : Prop :=
  ∃ l, Grows a b l ∧ l.map Prod.fst <+: plan ∧
    match o with
    | .ret none => Clean l ∧ l.map Prod.fst = plan
    | .ret (some e) => StoppedAt l e
    | .panic => Clean l
    | .exit _ => False

/-- The create-table statements in the order the claim gives: `note`, `note_tag`,
`note_fragment`, `note_fragment_tag`. -/
def schemaOrder : List Stmt :=
  [.createNoteTable, .createNoteTagTable, .createNoteFragmentTable, .createNoteFragmentTagTable]

/-- The create-table statements. -/
def Stmt.isCreate : Stmt → Bool
  | .createNoteTable => true
  | .createNoteTagTable => true
  | .createNoteFragmentTable => true
  | .createNoteFragmentTagTable => true
  | _ => false

/-- A result of a create-table statement after which the bootstrap goes on: the
statement succeeded, or it failed with an error whose text contains `already exists`,
the failure that `createTable` maps to `ErrPostgresDbInitTableAlreadyExistsErr`. -/
def Result.tolerated : Result → Bool
  | .err text => strings_Contains text "already exists"
  | _ => true

/-- The context `createSchema` puts in front of the error of each table. -/
def targetContext : Stmt → String
  | .createNoteTable => "Target table: note. Error: "
  | .createNoteTagTable => "Target table: note_tag. Error: "
  | .createNoteFragmentTable => "Target table: note_fragment. Error: "
  | .createNoteFragmentTagTable => "Target table: note_fragment_tag. Error: "
  | _ => ""

/-- The four steps of `createSchema` as one loop over the statements: each goes through
`createTable`, and an error that `notNilNotTableExists` accepts ends the loop. It is
shown equal to the unrolled code in `createSchema_eq`. -/
def createAll (db : Db) : List Stmt → Db × Option GoError
  | [] => (db, none)
  | q :: rest =>
    let r := DbPostgres.createTable db q
    if notNilNotTableExists r.2 then
      (r.1, r.2.map (GoError.wrapf .ErrPostgresDbCreateSchemaFails (targetContext q)))
    else createAll r.1 rest

/-! ## The backend: what one call changes -/

theorem execute_trace (db : Db) (b : Bool) (s : Stmt) :
    (Db.execute db b s).1.trace = db.trace := by
  cases s <;> simp only [Db.execute, Db.createIn, Db.insertInto] <;> split_ifs <;> rfl

theorem execute_closed (db : Db) (b : Bool) (s : Stmt) :
    (Db.execute db b s).1.closed = db.closed := by
  cases s <;> simp only [Db.execute, Db.createIn, Db.insertInto] <;> split_ifs <;> rfl

theorem call_trace (db : Db) (s : Stmt) :
    (db.call s).1.trace = db.trace ++ [(s, (db.call s).2)] := by
  unfold Db.call
  split_ifs
  · rfl
  · split
    · rfl
    · simp [Db.logged, execute_trace]

theorem call_closed (db : Db) (s : Stmt) : (db.call s).1.closed = db.closed := by
  unfold Db.call
  split_ifs
  · rfl
  · split
    · rfl
    · simp [Db.logged, execute_closed]

theorem since_call (db : Db) (s : Stmt) :
    db.since (db.call s).1 = [(s, (db.call s).2)] := by
  simp [Db.since, call_trace]

theorem executed_append (l₁ l₂ : List (Stmt × Result)) :
    executed (l₁ ++ l₂) = executed l₁ ++ executed l₂ := by
  induction l₁ with
  | nil => rfl
  | cons e rest ih =>
    obtain ⟨s, r⟩ := e
    cases r <;> simp [executed, ih]

theorem noteColsOf_append (l₁ l₂ : List Stmt) :
    noteColsOf (l₁ ++ l₂) = noteColsOf l₁ ++ noteColsOf l₂ := by
  induction l₁ with
  | nil => rfl
  | cons s rest ih => cases s <;> simp [noteColsOf, ih]

theorem noteTagColsOf_append (l₁ l₂ : List Stmt) :
    noteTagColsOf (l₁ ++ l₂) = noteTagColsOf l₁ ++ noteTagColsOf l₂ := by
  induction l₁ with
  | nil => rfl
  | cons s rest ih => cases s <;> simp [noteTagColsOf, ih]

theorem fragmentColsOf_append (l₁ l₂ : List Stmt) :
    fragmentColsOf (l₁ ++ l₂) = fragmentColsOf l₁ ++ fragmentColsOf l₂ := by
  induction l₁ with
  | nil => rfl
  | cons s rest ih => cases s <;> simp [fragmentColsOf, ih]

theorem fragmentTagColsOf_append (l₁ l₂ : List Stmt) :
    fragmentTagColsOf (l₁ ++ l₂) = fragmentTagColsOf l₁ ++ fragmentTagColsOf l₂ := by
  induction l₁ with
  | nil => rfl
  | cons s rest ih => cases s <;> simp [fragmentTagColsOf, ih]

theorem Grows.refl (a : Db) : Grows a a [] :=
  ⟨by simp, rfl, ⟨[], by simp, rfl⟩, ⟨[], by simp, rfl⟩, ⟨[], by simp, rfl⟩, ⟨[], by simp, rfl⟩⟩

theorem Grows.trans {a b c : Db} {l₁ l₂ : List (Stmt × Result)}
    (h₁ : Grows a b l₁) (h₂ : Grows b c l₂) : Grows a c (l₁ ++ l₂) := by
  obtain ⟨t1, c1, ⟨x1, e1, m1⟩, ⟨y1, f1, n1⟩, ⟨z1, g1, o1⟩, ⟨w1, k1, p1⟩⟩ := h₁
  obtain ⟨t2, c2, ⟨x2, e2, m2⟩, ⟨y2, f2, n2⟩, ⟨z2, g2, o2⟩, ⟨w2, k2, p2⟩⟩ := h₂
  refine ⟨by rw [t2, t1, List.append_assoc], c2.trans c1, ⟨x1 ++ x2, ?_, ?_⟩,
    ⟨y1 ++ y2, ?_, ?_⟩, ⟨z1 ++ z2, ?_, ?_⟩, ⟨w1 ++ w2, ?_, ?_⟩⟩
  · rw [e2, e1, List.append_assoc]
  · rw [List.map_append, m1, m2, executed_append, noteColsOf_append]
  · rw [f2, f1, List.append_assoc]
  · rw [List.map_append, n1, n2, executed_append, noteTagColsOf_append]
  · rw [g2, g1, List.append_assoc]
  · rw [List.map_append, o1, o2, executed_append, fragmentColsOf_append]
  · rw [k2, k1, List.append_assoc]
  · rw [List.map_append, p1, p2, executed_append, fragmentTagColsOf_append]

theorem execute_grows (db : Db) (b : Bool) (s : Stmt) :
    Grows db ((Db.execute db b s).1.logged s (Db.execute db b s).2) [(s, (Db.execute db b s).2)] := by
  cases s <;> simp only [Db.execute, Db.createIn, Db.insertInto] <;> (try split_ifs) <;>
    first
    | exact ⟨rfl, rfl, ⟨[], by simp [Db.logged], rfl⟩, ⟨[], by simp [Db.logged], rfl⟩,
        ⟨[], by simp [Db.logged], rfl⟩, ⟨[], by simp [Db.logged], rfl⟩⟩
    | exact ⟨rfl, rfl, ⟨[_], rfl, rfl⟩, ⟨[], by simp [Db.logged], rfl⟩,
        ⟨[], by simp [Db.logged], rfl⟩, ⟨[], by simp [Db.logged], rfl⟩⟩
    | exact ⟨rfl, rfl, ⟨[], by simp [Db.logged], rfl⟩, ⟨[_], rfl, rfl⟩,
        ⟨[], by simp [Db.logged], rfl⟩, ⟨[], by simp [Db.logged], rfl⟩⟩
    | exact ⟨rfl, rfl, ⟨[], by simp [Db.logged], rfl⟩, ⟨[], by simp [Db.logged], rfl⟩,
        ⟨[_], rfl, rfl⟩, ⟨[], by simp [Db.logged], rfl⟩⟩
    | exact ⟨rfl, rfl, ⟨[], by simp [Db.logged], rfl⟩, ⟨[], by simp [Db.logged], rfl⟩,
        ⟨[], by simp [Db.logged], rfl⟩, ⟨[_], rfl, rfl⟩⟩

theorem call_grows (db : Db) (s : Stmt) : Grows db (db.call s).1 [(s, (db.call s).2)] := by
  unfold Db.call
  split_ifs
  · exact ⟨rfl, rfl, ⟨[], by simp [Db.logged], rfl⟩, ⟨[], by simp [Db.logged], rfl⟩,
      ⟨[], by simp [Db.logged], rfl⟩, ⟨[], by simp [Db.logged], rfl⟩⟩
  · split
    · exact ⟨rfl, rfl, ⟨[], by simp [Db.logged], rfl⟩, ⟨[], by simp [Db.logged], rfl⟩,
        ⟨[], by simp [Db.logged], rfl⟩, ⟨[], by simp [Db.logged], rfl⟩⟩
    · rename_i b _
      have h := execute_grows { db with script := db.script.tail } b s
      exact ⟨h.trace, h.closed, h.note, h.note_tag, h.note_fragment, h.note_fragment_tag⟩

theorem Grows.since {a b : Db} {l : List (Stmt × Result)} (h : Grows a b l) :
    a.since b = l := by
  simp [Db.since, h.trace]

theorem root_wrapf (c : Sentinel) (ctx : String) (e : GoError) :
    (GoError.wrapf c ctx e).root = e.root := rfl

theorem StoppedAt.rewrap {l : List (Stmt × Result)} {e : GoError} (h : StoppedAt l e)
    (c : Sentinel) (ctx : String) : StoppedAt l (.wrapf c ctx e) := by
  obtain ⟨l₀, s, r, hl, hc, hq, hr⟩ := h
  exact ⟨l₀, s, r, hl, hc, hq, by rw [root_wrapf]; exact hr⟩

theorem Clean.append {l₁ l₂ : List (Stmt × Result)} (h₁ : Clean l₁) (h₂ : Clean l₂) :
    Clean (l₁ ++ l₂) := by
  intro e he
  rcases List.mem_append.mp he with h | h
  · exact h₁ e h
  · exact h₂ e h

theorem clean_nil : Clean [] := by
  intro e he
  cases he

/-- One call, as the caller of `Scan` into a by-value destination sees it. -/
theorem call_follows (db : Db) (s : Stmt) (c : Sentinel) :
    Follows db (db.call s).1 [s]
      (.ret (if notNilNotNoRows (Scan (db.call s).2 .value).1
        then (Scan (db.call s).2 .value).1.map (GoError.wrapf c "") else none)) := by
  refine ⟨[(s, (db.call s).2)], call_grows db s, by simp, ?_⟩
  by_cases h : notNilNotNoRows (Scan (db.call s).2 .value).1 = true
  · rw [if_pos h]
    cases hs : (Scan (db.call s).2 .value).1 with
    | none => rw [hs] at h; simp [notNilNotNoRows] at h
    | some e =>
      simp only [Option.map_some']
      exact ⟨[], s, (db.call s).2, rfl, clean_nil, by simp [Result.quiet, h], by
        rw [root_wrapf, hs]
        cases hr : (db.call s).2 <;> rw [hr] at hs <;> simp [Scan] at hs <;>
          subst hs <;> rfl⟩
  · rw [if_neg h]
    refine ⟨?_, by simp⟩
    intro e he
    simp only [List.mem_singleton] at he
    subst he
    simpa [Result.quiet] using h

/-! ## Composing operations that follow a plan -/

theorem Follows.nil (a : Db) : Follows a a [] (.ret none) :=
  ⟨[], Grows.refl a, by simp, clean_nil, rfl⟩

theorem Follows.seq {a b c : Db} {P₁ P₂ : List Stmt} {o : Outcome (Option GoError)}
    (h₁ : Follows a b P₁ (.ret none)) (h₂ : Follows b c P₂ o) :
    Follows a c (P₁ ++ P₂) o := by
  obtain ⟨l₁, g₁, _, c₁, m₁⟩ := h₁
  obtain ⟨l₂, g₂, p₂, r₂⟩ := h₂
  refine ⟨l₁ ++ l₂, g₁.trans g₂, ?_, ?_⟩
  · rw [List.map_append, m₁]
    exact (List.prefix_append_right_inj P₁).mpr p₂
  · match o, r₂ with
    | .ret none, ⟨c₂, m₂⟩ => exact ⟨c₁.append c₂, by rw [List.map_append, m₁, m₂]⟩
    | .ret (some e), ⟨l₀, s, r, hl, hc, hq, hr⟩ =>
      exact ⟨l₁ ++ l₀, s, r, by rw [hl, List.append_assoc], c₁.append hc, hq, hr⟩
    | .panic, c₂ => exact c₁.append c₂

theorem Follows.stop {a b : Db} {P₁ : List Stmt} {e : GoError}
    (h : Follows a b P₁ (.ret (some e))) (P₂ : List Stmt) (c : Sentinel) (ctx : String) :
    Follows a b (P₁ ++ P₂) (.ret (some (.wrapf c ctx e))) := by
  obtain ⟨l, g, p, r⟩ := h
  exact ⟨l, g, p.trans (List.prefix_append P₁ P₂), StoppedAt.rewrap r c ctx⟩

theorem Follows.stop_same {a b : Db} {P₁ : List Stmt} {e : GoError}
    (h : Follows a b P₁ (.ret (some e))) (P₂ : List Stmt) :
    Follows a b (P₁ ++ P₂) (.ret (some e)) := by
  obtain ⟨l, g, p, r⟩ := h
  exact ⟨l, g, p.trans (List.prefix_append P₁ P₂), r⟩

theorem Follows.panicked {a b : Db} {P₁ : List Stmt}
    (h : Follows a b P₁ .panic) (P₂ : List Stmt) : Follows a b (P₁ ++ P₂) .panic := by
  obtain ⟨l, g, p, r⟩ := h
  exact ⟨l, g, p.trans (List.prefix_append P₁ P₂), r⟩

theorem notNilNotNoRows_wrapf (c : Sentinel) (ctx : String) (d : GoError) :
    notNilNotNoRows (some (.wrapf c ctx d)) = true := by
  simp [notNilNotNoRows]

theorem notNilNotNoRows_none : notNilNotNoRows none = false := by
  simp [notNilNotNoRows]

/-! ## The insert operations follow their plans -/

theorem AddNoteTag_cases (db : Db) (g t : String) :
    (DbPostgres.AddNoteTag db g t).2 = (0, none) ∨
      ∃ d, (DbPostgres.AddNoteTag db g t).2 =
        (0, some (.wrapf .ErrPostgresDbAddNoteTagFailedToGetNewId "" d)) := by
  unfold DbPostgres.AddNoteTag
  simp only
  split_ifs with h
  · right
    cases hs : (Scan (QueryRow db (.addNoteTagQuery ⟨g, t⟩)).2 .value).1 with
    | none => rw [hs] at h; simp [notNilNotNoRows] at h
    | some d => exact ⟨d, rfl⟩
  · left; rfl

theorem AddNoteTag_follows (db : Db) (g t : String) :
    Follows db (DbPostgres.AddNoteTag db g t).1 [.addNoteTagQuery ⟨g, t⟩]
      (.ret (DbPostgres.AddNoteTag db g t).2.2) := by
  have h := call_follows db (.addNoteTagQuery ⟨g, t⟩) .ErrPostgresDbAddNoteTagFailedToGetNewId
  unfold DbPostgres.AddNoteTag QueryRow
  simp only
  split_ifs with hb
  · simpa [hb] using h
  · simpa [hb] using h

theorem addFragmentTags_follows (nf : NoteFragment) (tags : List String) (db : Db) :
    Follows db (DbPostgres.addFragmentTags db nf tags).1 (tagPlan nf.NoteFragmentGuid tags)
      (.ret (DbPostgres.addFragmentTags db nf tags).2) := by
  induction tags generalizing db with
  | nil => exact Follows.nil db
  | cons v rest ih =>
    have h := AddNoteTag_follows db nf.NoteFragmentGuid v
    unfold DbPostgres.addFragmentTags
    simp only [tagPlan, List.map_cons]
    rcases AddNoteTag_cases db nf.NoteFragmentGuid v with hc | ⟨d, hc⟩
    · rw [hc] at h
      simp only [hc, notNilNotNoRows_none, Bool.false_eq_true, if_false]
      exact Follows.seq h (ih _)
    · rw [hc] at h
      simp only [hc, notNilNotNoRows_wrapf, if_true, Option.map_some']
      exact Follows.stop h _ _ _

theorem addNoteTags_follows (n : Note) (tags : List String) (db : Db) :
    Follows db (DbPostgres.addNoteTags db n tags).1 (tagPlan n.NoteGuid tags)
      (.ret (DbPostgres.addNoteTags db n tags).2) := by
  induction tags generalizing db with
  | nil => exact Follows.nil db
  | cons v rest ih =>
    have h := AddNoteTag_follows db n.NoteGuid v
    unfold DbPostgres.addNoteTags
    simp only [tagPlan, List.map_cons]
    rcases AddNoteTag_cases db n.NoteGuid v with hc | ⟨d, hc⟩
    · rw [hc] at h
      simp only [hc, notNilNotNoRows_none, Bool.false_eq_true, if_false]
      exact Follows.seq h (ih _)
    · rw [hc] at h
      simp only [hc, notNilNotNoRows_wrapf, if_true, Option.map_some']
      exact Follows.stop h _ _ _

theorem addFragmentTags_err (nf : NoteFragment) (tags : List String) (db : Db) :
    (DbPostgres.addFragmentTags db nf tags).2 = none ∨
      ∃ c d, (DbPostgres.addFragmentTags db nf tags).2 = some (.wrapf c "" d) := by
  induction tags generalizing db with
  | nil => left; rfl
  | cons v rest ih =>
    unfold DbPostgres.addFragmentTags
    rcases AddNoteTag_cases db nf.NoteFragmentGuid v with hc | ⟨d, hc⟩
    · simp only [hc, notNilNotNoRows_none, Bool.false_eq_true, if_false]
      exact ih _
    · simp only [hc, notNilNotNoRows_wrapf, if_true, Option.map_some']
      exact Or.inr ⟨_, _, rfl⟩

theorem addNoteTags_err (n : Note) (tags : List String) (db : Db) :
    (DbPostgres.addNoteTags db n tags).2 = none ∨
      ∃ c d, (DbPostgres.addNoteTags db n tags).2 = some (.wrapf c "" d) := by
  induction tags generalizing db with
  | nil => left; rfl
  | cons v rest ih =>
    unfold DbPostgres.addNoteTags
    rcases AddNoteTag_cases db n.NoteGuid v with hc | ⟨d, hc⟩
    · simp only [hc, notNilNotNoRows_none, Bool.false_eq_true, if_false]
      exact ih _
    · simp only [hc, notNilNotNoRows_wrapf, if_true, Option.map_some']
      exact Or.inr ⟨_, _, rfl⟩

/-- How `AddNoteFragment` ends: a panic for a fragment without a timestamp; otherwise it
returns, with the caller's id and a nil error, or with id 0 and an annotated error. -/
theorem AddNoteFragment_cases (db : Db) (nf : NoteFragment) :
    ((DbPostgres.AddNoteFragment db nf).2 = .panic ∧ nf.DateCreated = none) ∨
    (DbPostgres.AddNoteFragment db nf).2 = .ret (nf.Id, nf.NoteFragmentGuid, none) ∨
    ∃ g c d, (DbPostgres.AddNoteFragment db nf).2 = .ret (0, g, some (.wrapf c "" d)) := by
  unfold DbPostgres.AddNoteFragment
  cases hd : nf.DateCreated with
  | none => left; exact ⟨rfl, rfl⟩
  | some ts =>
    right
    simp only
    split_ifs with hb
    · right
      cases hs : (Scan (QueryRow db (.addNoteFragmentQuery (fragmentCols nf ts))).2 .value).1 with
      | none => rw [hs] at hb; simp [notNilNotNoRows] at hb
      | some d => exact ⟨_, _, d, rfl⟩
    · rcases addFragmentTags_err nf nf.Tags
        (QueryRow db (.addNoteFragmentQuery (fragmentCols nf ts))).1 with ht | ⟨c, d, ht⟩
      · left; simp only [ht]
      · right; simp only [ht]; exact ⟨_, c, d, rfl⟩

theorem AddNoteFragment_follows (db : Db) (nf : NoteFragment) :
    Follows db (DbPostgres.AddNoteFragment db nf).1 (fragmentPlan nf)
      ((DbPostgres.AddNoteFragment db nf).2.map fun x => x.2.2) := by
  unfold DbPostgres.AddNoteFragment fragmentPlan
  cases hd : nf.DateCreated with
  | none => exact ⟨[], Grows.refl db, by simp, clean_nil⟩
  | some ts =>
    simp only
    have h := call_follows db (.addNoteFragmentQuery (fragmentCols nf ts))
      .ErrPostgresDbAddNoteFragmentFailedToGetNewId
    unfold QueryRow
    split_ifs with hb
    · rw [if_pos hb] at h
      cases hs : (Scan (db.call (.addNoteFragmentQuery (fragmentCols nf ts))).2 .value).1 with
      | none => rw [hs] at hb; simp [notNilNotNoRows] at hb
      | some d =>
        rw [hs] at h
        simp only [Option.map_some', Outcome.map] at h ⊢
        exact Follows.stop_same h _
    · rw [if_neg hb] at h
      have ht := addFragmentTags_follows nf nf.Tags
        (db.call (.addNoteFragmentQuery (fragmentCols nf ts))).1
      have hs := Follows.seq h ht
      rcases addFragmentTags_err nf nf.Tags
        (db.call (.addNoteFragmentQuery (fragmentCols nf ts))).1 with he | ⟨c, d, he⟩
      · rw [he] at hs
        simp only [he, Outcome.map]
        exact hs
      · rw [he] at hs
        simp only [he, Outcome.map]
        exact hs

theorem addFragments_follows (frags : List NoteFragment) (db : Db) :
    Follows db (DbPostgres.addFragments db frags).1 (fragmentsPlan frags)
      (DbPostgres.addFragments db frags).2 := by
  induction frags generalizing db with
  | nil => exact Follows.nil db
  | cons v rest ih =>
    have h := AddNoteFragment_follows db v
    unfold DbPostgres.addFragments
    simp only [fragmentsPlan]
    rcases AddNoteFragment_cases db v with ⟨hc, _⟩ | hc | ⟨g, c, d, hc⟩
    · rw [hc] at h
      generalize DbPostgres.AddNoteFragment db v = r at h hc
      obtain ⟨r1, r2⟩ := r
      simp only at hc
      subst hc
      exact Follows.panicked h _
    · rw [hc] at h
      generalize DbPostgres.AddNoteFragment db v = r at h hc
      obtain ⟨r1, r2⟩ := r
      simp only at hc
      subst hc
      simp only [notNilNotNoRows_none, Bool.false_eq_true, if_false]
      exact Follows.seq h (ih _)
    · rw [hc] at h
      generalize DbPostgres.AddNoteFragment db v = r at h hc
      obtain ⟨r1, r2⟩ := r
      simp only at hc
      subst hc
      simp only [notNilNotNoRows_wrapf, if_true, Option.map_some']
      exact Follows.stop h _ _ _

theorem addFragments_cases (frags : List NoteFragment) (db : Db) :
    (DbPostgres.addFragments db frags).2 = .panic ∨
    (DbPostgres.addFragments db frags).2 = .ret none ∨
    ∃ c d, (DbPostgres.addFragments db frags).2 = .ret (some (.wrapf c "" d)) := by
  induction frags generalizing db with
  | nil => right; left; rfl
  | cons v rest ih =>
    unfold DbPostgres.addFragments
    rcases AddNoteFragment_cases db v with ⟨hc, _⟩ | hc | ⟨g, c, d, hc⟩
    · generalize DbPostgres.AddNoteFragment db v = r at hc
      obtain ⟨r1, r2⟩ := r
      simp only at hc
      subst hc
      left; rfl
    · generalize DbPostgres.AddNoteFragment db v = r at hc
      obtain ⟨r1, r2⟩ := r
      simp only at hc
      subst hc
      simp only [notNilNotNoRows_none, Bool.false_eq_true, if_false]
      exact ih _
    · generalize DbPostgres.AddNoteFragment db v = r at hc
      obtain ⟨r1, r2⟩ := r
      simp only at hc
      subst hc
      simp only [notNilNotNoRows_wrapf, if_true, Option.map_some']
      exact Or.inr (Or.inr ⟨_, _, rfl⟩)

/-- How `AddNote` ends: a panic (in a fragment without a timestamp), the caller's id
with a nil error, or id 0 with an annotated error. -/
theorem AddNote_cases (db : Db) (n : Note) :
    (DbPostgres.AddNote db n).2 = .panic ∨
    (DbPostgres.AddNote db n).2 = .ret (n.Id, none) ∨
    ∃ c d, (DbPostgres.AddNote db n).2 = .ret (0, some (.wrapf c "" d)) := by
  unfold DbPostgres.AddNote
  simp only
  split_ifs with hb
  · right; right
    cases hs : (Scan (QueryRow db (.addNoteQuery (noteCols n))).2 .value).1 with
    | none => rw [hs] at hb; simp [notNilNotNoRows] at hb
    | some d => exact ⟨_, d, rfl⟩
  · rcases addFragments_cases n.Fragments (QueryRow db (.addNoteQuery (noteCols n))).1 with
      hc | hc | ⟨c, d, hc⟩
    · generalize DbPostgres.addFragments _ n.Fragments = r at hc
      obtain ⟨r1, r2⟩ := r
      simp only at hc
      subst hc
      left; rfl
    · generalize DbPostgres.addFragments _ n.Fragments = r at hc
      obtain ⟨r1, r2⟩ := r
      simp only at hc
      subst hc
      simp only
      rcases addNoteTags_err n n.Tags r1 with ht | ⟨c, d, ht⟩
      · generalize DbPostgres.addNoteTags r1 n n.Tags = t at ht
        obtain ⟨t1, t2⟩ := t
        simp only at ht
        subst ht
        right; left; rfl
      · generalize DbPostgres.addNoteTags r1 n n.Tags = t at ht
        obtain ⟨t1, t2⟩ := t
        simp only at ht
        subst ht
        right; right; exact ⟨_, _, rfl⟩
    · generalize DbPostgres.addFragments _ n.Fragments = r at hc
      obtain ⟨r1, r2⟩ := r
      simp only at hc
      subst hc
      right; right; exact ⟨_, _, rfl⟩

theorem AddNote_follows (db : Db) (n : Note) :
    Follows db (DbPostgres.AddNote db n).1 (notePlan n)
      ((DbPostgres.AddNote db n).2.map fun x => x.2) := by
  have h := call_follows db (.addNoteQuery (noteCols n)) .ErrPostgresDbAddNoteFailedToGetNewId
  unfold DbPostgres.AddNote QueryRow notePlan
  simp only
  split_ifs with hb
  · rw [if_pos hb] at h
    cases hs : (Scan (db.call (.addNoteQuery (noteCols n))).2 .value).1 with
    | none => rw [hs] at hb; simp [notNilNotNoRows] at hb
    | some d =>
      rw [hs] at h
      simp only [Option.map_some', Outcome.map] at h ⊢
      exact Follows.stop_same h _
  · rw [if_neg hb] at h
    have hf := addFragments_follows n.Fragments (db.call (.addNoteQuery (noteCols n))).1
    rcases addFragments_cases n.Fragments (db.call (.addNoteQuery (noteCols n))).1 with
      hc | hc | ⟨c, d, hc⟩
    · rw [hc] at hf
      generalize DbPostgres.addFragments _ n.Fragments = r at hf hc
      obtain ⟨r1, r2⟩ := r
      simp only at hc
      subst hc
      exact Follows.seq h (Follows.panicked hf _)
    · rw [hc] at hf
      generalize DbPostgres.addFragments _ n.Fragments = r at hf hc
      obtain ⟨r1, r2⟩ := r
      simp only at hc hf
      subst hc
      simp only
      have ht := addNoteTags_follows n n.Tags r1
      have hall := Follows.seq h (Follows.seq hf ht)
      rcases addNoteTags_err n n.Tags r1 with he | ⟨c, d, he⟩
      · rw [he] at hall
        generalize DbPostgres.addNoteTags r1 n n.Tags = t at hall he
        obtain ⟨t1, t2⟩ := t
        simp only at he hall
        subst he
        exact hall
      · rw [he] at hall
        generalize DbPostgres.addNoteTags r1 n n.Tags = t at hall he
        obtain ⟨t1, t2⟩ := t
        simp only at he hall
        subst he
        exact hall
    · rw [hc] at hf
      generalize DbPostgres.addFragments _ n.Fragments = r at hf hc
      obtain ⟨r1, r2⟩ := r
      simp only at hc hf
      subst hc
      exact Follows.seq h (Follows.stop_same hf _)

/-! ## What a log says about the rows -/

theorem quiet_err (text : String) : (Result.err text).quiet = false := by
  simp [Result.quiet, Scan, notNilNotNoRows]

theorem executed_of_clean {l : List (Stmt × Result)} (h : Clean l) :
    executed l = l.map Prod.fst := by
  induction l with
  | nil => rfl
  | cons e rest ih =>
    obtain ⟨s, r⟩ := e
    have hr : r.quiet = true := h (s, r) (List.mem_cons_self _ _)
    have ih' := ih fun x hx => h x (List.mem_cons_of_mem _ hx)
    cases r with
    | err text => rw [quiet_err] at hr; cases hr
    | noRows => simp [executed, ih']
    | row id => simp [executed, ih']
    | notes rows => simp [executed, ih']

theorem executed_subset (l : List (Stmt × Result)) :
    ∀ s ∈ executed l, s ∈ l.map Prod.fst := by
  induction l with
  | nil => intro s hs; cases hs
  | cons e rest ih =>
    obtain ⟨s₀, r⟩ := e
    intro s hs
    cases r with
    | err text =>
      simp only [executed] at hs
      exact List.mem_cons_of_mem _ (ih s hs)
    | noRows =>
      simp only [executed, List.mem_cons] at hs
      rcases hs with h | h
      · subst h; simp
      · exact List.mem_cons_of_mem _ (ih s h)
    | row id =>
      simp only [executed, List.mem_cons] at hs
      rcases hs with h | h
      · subst h; simp
      · exact List.mem_cons_of_mem _ (ih s h)
    | notes rows =>
      simp only [executed, List.mem_cons] at hs
      rcases hs with h | h
      · subst h; simp
      · exact List.mem_cons_of_mem _ (ih s h)

theorem fragmentTagColsOf_eq_nil (l : List Stmt)
    (h : ∀ s ∈ l, ∀ c, s ≠ Stmt.addNoteFragmentTagQuery c) : fragmentTagColsOf l = [] := by
  induction l with
  | nil => rfl
  | cons s rest ih =>
    have ih' := ih fun x hx => h x (List.mem_cons_of_mem _ hx)
    have hs := h s (List.mem_cons_self _ _)
    cases s <;> simp [fragmentTagColsOf, ih'] at hs ⊢

theorem noteTagColsOf_tagPlan (owner : String) (tags : List String) :
    noteTagColsOf (tagPlan owner tags) = tags.map fun t => ⟨owner, t⟩ := by
  induction tags with
  | nil => rfl
  | cons t rest ih =>
    simp only [tagPlan, List.map_cons, noteTagColsOf] at ih ⊢
    rw [ih]

theorem fragmentPlan_no_fragment_tag (nf : NoteFragment) :
    ∀ s ∈ fragmentPlan nf, ∀ c, s ≠ Stmt.addNoteFragmentTagQuery c := by
  intro s hs c
  unfold fragmentPlan at hs
  cases hd : nf.DateCreated with
  | none => rw [hd] at hs; cases hs
  | some ts =>
    rw [hd] at hs
    simp only [tagPlan, List.mem_cons, List.mem_map] at hs
    rcases hs with h | ⟨t, _, h⟩
    · subst h; simp
    · subst h; simp

theorem StoppedAt.last {l : List (Stmt × Result)} {e : GoError} (h : StoppedAt l e)
    {l₁ l₂ : List (Stmt × Result)} {s : Stmt} {text : String}
    (hl : l = l₁ ++ (s, Result.err text) :: l₂) : l₂ = [] ∧ e.root = .driver text := by
  obtain ⟨l₀, s', r, hl', hc, _, hr⟩ := h
  rcases List.eq_nil_or_concat l₂ with h2 | ⟨l₂', x, h2⟩
  · subst h2
    rw [hl'] at hl
    have hh := List.append_inj' hl rfl
    obtain ⟨_, h3⟩ := hh
    simp only [List.cons.injEq, Prod.mk.injEq, and_true] at h3
    obtain ⟨_, h4⟩ := h3
    subst h4
    simp only [Scan, Option.some.injEq] at hr
    exact ⟨rfl, hr.symm⟩
  · subst h2
    rw [hl', List.concat_eq_append, ← List.cons_append, ← List.append_assoc] at hl
    have hh := List.append_inj' hl rfl
    have hmem : (s, Result.err text) ∈ l₀ := by rw [hh.1]; simp
    have := hc _ hmem
    rw [quiet_err] at this
    cases this

theorem Clean.no_err {l : List (Stmt × Result)} (h : Clean l)
    {l₁ l₂ : List (Stmt × Result)} {s : Stmt} {text : String}
    (hl : l = l₁ ++ (s, Result.err text) :: l₂) : False := by
  have hmem : (s, Result.err text) ∈ l := by rw [hl]; simp
  have := h _ hmem
  rw [quiet_err] at this
  cases this

/-! ## Claims about the insert operations -/

/-- C1 (defect in the code). `AddNote` and `AddNoteFragment` hand the id field to `Scan`
by value (`row.Scan(n.Id)`, `row.Scan(nf.Id)`), so the generated key is never read:
whenever either returns, the id is the one the caller's struct carried (with a nil
error) or 0 (with an error). On a backend that inserts the row under key 1 and reports
that key, both return 0 and an error; on a backend that inserts the row under key 1 and
reports no row, both return the caller's 7. -/
theorem C1_generated_key_is_never_returned :
    (∀ (db : Db) (n : Note) (id : Int) (err : Option GoError),
      (DbPostgres.AddNote db n).2 = .ret (id, err) →
        (id = n.Id ∧ err = none) ∨ (id = 0 ∧ err ≠ none)) ∧
    (∀ (db : Db) (nf : NoteFragment) (id : Int) (guid : String) (err : Option GoError),
      (DbPostgres.AddNoteFragment db nf).2 = .ret (id, guid, err) →
        (id = nf.Id ∧ err = none) ∨ (id = 0 ∧ err ≠ none)) ∧
    (DbPostgres.AddNote Db.ready sampleNote).2 =
      .ret (0, some (.wrapf .ErrPostgresDbAddNoteFailedToGetNewId "" .scanNotPointer)) ∧
    (DbPostgres.AddNote Db.ready sampleNote).1.note = [⟨1, noteCols sampleNote⟩] ∧
    (DbPostgres.AddNote Db.ready sampleNote).1.trace =
      [(.addNoteQuery (noteCols sampleNote), .row 1)] ∧
    (DbPostgres.AddNote (Db.quiet 4) sampleNote).2 = .ret (7, none) ∧
    (DbPostgres.AddNote (Db.quiet 4) sampleNote).1.note = [⟨1, noteCols sampleNote⟩] ∧
    (DbPostgres.AddNoteFragment Db.ready sampleFragment).2 =
      .ret (0, "", some (.wrapf .ErrPostgresDbAddNoteFragmentFailedToGetNewId "" .scanNotPointer)) ∧
    (DbPostgres.AddNoteFragment Db.ready sampleFragment).1.note_fragment =
      [⟨1, fragmentCols sampleFragment ⟨10, 20⟩⟩] ∧
    (DbPostgres.AddNoteFragment (Db.quiet 2) sampleFragment).2 = .ret (7, "f1", none) ∧
    (DbPostgres.AddNoteFragment (Db.quiet 2) sampleFragment).1.note_fragment =
      [⟨1, fragmentCols sampleFragment ⟨10, 20⟩⟩] := by
  refine ⟨?_, ?_, by decide, by decide, by decide, by decide, by decide, by decide, by decide,
    by decide, by decide⟩
  · intro db n id err h
    rcases AddNote_cases db n with hc | hc | ⟨c, d, hc⟩
    · rw [hc] at h; cases h
    · rw [hc] at h
      simp only [Outcome.ret.injEq, Prod.mk.injEq] at h
      exact Or.inl ⟨h.1.symm, h.2.symm⟩
    · rw [hc] at h
      simp only [Outcome.ret.injEq, Prod.mk.injEq] at h
      refine Or.inr ⟨h.1.symm, ?_⟩
      rw [← h.2]
      simp
  · intro db nf id guid err h
    rcases AddNoteFragment_cases db nf with ⟨hc, _⟩ | hc | ⟨g, c, d, hc⟩
    · rw [hc] at h; cases h
    · rw [hc] at h
      simp only [Outcome.ret.injEq, Prod.mk.injEq] at h
      exact Or.inl ⟨h.1.symm, h.2.2.symm⟩
    · rw [hc] at h
      simp only [Outcome.ret.injEq, Prod.mk.injEq] at h
      refine Or.inr ⟨h.1.symm, ?_⟩
      rw [← h.2.2]
      simp

/-- C2 (defect in the code). `AddNoteFragment` sends the tags of a fragment through
`AddNoteTag`, not through `AddNoteFragmentTag`: whatever the backend does, the call adds
no row to `note_fragment_tag`, and when it returns a nil error it has added one row
`(nf.NoteFragmentGuid, t)` per tag, in list order, to `note_tag`. For the sample
fragment with the tag `t1` the row `(f1, t1)` is in `note_tag` and `note_fragment_tag`
is empty. -/
theorem C2_fragment_tags_are_written_to_note_tag :
    (∀ (db : Db) (nf : NoteFragment),
      (DbPostgres.AddNoteFragment db nf).1.note_fragment_tag = db.note_fragment_tag) ∧
    (∀ (db : Db) (nf : NoteFragment) (id : Int) (guid : String),
      (DbPostgres.AddNoteFragment db nf).2 = .ret (id, guid, none) →
        ∃ x, (DbPostgres.AddNoteFragment db nf).1.note_tag = db.note_tag ++ x ∧
          x.map (fun r => r.cols) = nf.Tags.map fun t => ⟨nf.NoteFragmentGuid, t⟩) ∧
    (DbPostgres.AddNoteFragment (Db.quiet 2) sampleFragment).2 = .ret (7, "f1", none) ∧
    (DbPostgres.AddNoteFragment (Db.quiet 2) sampleFragment).1.note_tag = [⟨1, ⟨"f1", "t1"⟩⟩] ∧
    (DbPostgres.AddNoteFragment (Db.quiet 2) sampleFragment).1.note_fragment_tag = [] := by
  refine ⟨?_, ?_, by decide, by decide, by decide⟩
  · intro db nf
    obtain ⟨l, g, p, _⟩ := AddNoteFragment_follows db nf
    obtain ⟨x, hx, hm⟩ := g.note_fragment_tag
    have hnil : fragmentTagColsOf (executed l) = [] := by
      apply fragmentTagColsOf_eq_nil
      intro s hs c
      exact fragmentPlan_no_fragment_tag nf s (p.subset (executed_subset l s hs)) c
    rw [hnil] at hm
    rw [hx, List.map_eq_nil_iff.mp hm, List.append_nil]
  · intro db nf id guid h
    have hf := AddNoteFragment_follows db nf
    rw [h] at hf
    obtain ⟨l, g, _, hc, hm⟩ := hf
    obtain ⟨x, hx, hcols⟩ := g.note_tag
    refine ⟨x, hx, ?_⟩
    rw [hcols, executed_of_clean hc, hm]
    unfold fragmentPlan
    cases hd : nf.DateCreated with
    | none =>
      rcases AddNoteFragment_cases db nf with ⟨hp, _⟩ | hp | ⟨g', c, d, hp⟩
      · rw [hp] at h; cases h
      · unfold DbPostgres.AddNoteFragment at h
        rw [hd] at h
        cases h
      · rw [hp] at h
        simp at h
    | some ts =>
      simp only [noteTagColsOf]
      exact noteTagColsOf_tagPlan _ _

/-! ## The schema bootstrap -/

theorem createTable_eq (db : Db) (q : Stmt) :
    DbPostgres.createTable db q = ((db.call q).1,
      match (db.call q).2 with
      | .err text =>
        if strings_Contains text "already exists" then
          some (.sentinel .ErrPostgresDbInitTableAlreadyExistsErr)
        else some (.wrapf .ErrPostgresDbCreateTableFails "" (.driver text))
      | _ => none) := by
  have hnil : strings_Contains "<nil>" "already exists" = false := by decide
  unfold DbPostgres.createTable Exec
  generalize db.call q = c
  obtain ⟨d, r⟩ := c
  cases r with
  | err text =>
    simp only [DbPostgres.sprintErr]
    split_ifs <;> rfl
  | noRows => simp [DbPostgres.sprintErr, hnil]
  | row id => simp [DbPostgres.sprintErr, hnil]
  | notes rows => simp [DbPostgres.sprintErr, hnil]

theorem createTable_stops (db : Db) (q : Stmt) :
    notNilNotTableExists (DbPostgres.createTable db q).2 = !(db.call q).2.tolerated := by
  rw [createTable_eq]
  cases h : (db.call q).2 with
  | err text =>
    simp only [Result.tolerated]
    by_cases hc : strings_Contains text "already exists" = true
    · simp [hc, notNilNotTableExists]
    · simp [hc, notNilNotTableExists]
  | noRows => simp [notNilNotTableExists, Result.tolerated]
  | row id => simp [notNilNotTableExists, Result.tolerated]
  | notes rows => simp [notNilNotTableExists, Result.tolerated]

theorem createSchema_eq (codes : EnumCodes) (fresh : Nat → Fresh) (db : Db) :
    DbPostgres.createSchema codes fresh db =
      match createAll db schemaOrder with
      | (d, some e) => (d, .ret (some e))
      | (d, none) => DbPostgres.createSchemaTail codes fresh d := by
  unfold DbPostgres.createSchema
  simp only [schemaOrder, createAll, targetContext]
  split_ifs with h1 h2 h3 h4
  · cases hh : (DbPostgres.createTable db .createNoteTable).2 with
    | none => rw [hh] at h1; simp [notNilNotTableExists] at h1
    | some e => simp
  · cases hh : (DbPostgres.createTable (DbPostgres.createTable db .createNoteTable).1
        .createNoteTagTable).2 with
    | none => rw [hh] at h2; simp [notNilNotTableExists] at h2
    | some e => simp
  · cases hh : (DbPostgres.createTable (DbPostgres.createTable
        (DbPostgres.createTable db .createNoteTable).1 .createNoteTagTable).1
        .createNoteFragmentTable).2 with
    | none => rw [hh] at h3; simp [notNilNotTableExists] at h3
    | some e => simp
  · cases hh : (DbPostgres.createTable (DbPostgres.createTable (DbPostgres.createTable
        (DbPostgres.createTable db .createNoteTable).1 .createNoteTagTable).1
        .createNoteFragmentTable).1 .createNoteFragmentTagTable).2 with
    | none => rw [hh] at h4; simp [notNilNotTableExists] at h4
    | some e => simp
  · rfl

theorem addFragments_panic (frags : List NoteFragment) (db : Db)
    (h : (DbPostgres.addFragments db frags).2 = .panic) :
    ∃ f ∈ frags, f.DateCreated = none := by
  induction frags generalizing db with
  | nil => cases h
  | cons v rest ih =>
    unfold DbPostgres.addFragments at h
    rcases AddNoteFragment_cases db v with ⟨_, hd⟩ | hc | ⟨g, c, d, hc⟩
    · exact ⟨v, List.mem_cons_self _ _, hd⟩
    · generalize DbPostgres.AddNoteFragment db v = r at hc h
      obtain ⟨r1, r2⟩ := r
      simp only at hc
      subst hc
      simp only [notNilNotNoRows_none, Bool.false_eq_true, if_false] at h
      obtain ⟨f, hf, hd⟩ := ih _ h
      exact ⟨f, List.mem_cons_of_mem _ hf, hd⟩
    · generalize DbPostgres.AddNoteFragment db v = r at hc h
      obtain ⟨r1, r2⟩ := r
      simp only at hc
      subst hc
      simp [notNilNotNoRows_wrapf] at h

/-- `AddNote` always makes its first call, the insert of the note row; what follows
only adds to the log and the tables; and it panics only on a fragment without a
timestamp. -/
theorem AddNote_shape (db : Db) (n : Note) :
    (∃ l, Grows (db.call (.addNoteQuery (noteCols n))).1 (DbPostgres.AddNote db n).1 l ∧
      l.map Prod.fst <+: fragmentsPlan n.Fragments ++ tagPlan n.NoteGuid n.Tags) ∧
    ((DbPostgres.AddNote db n).2 = .panic → ∃ f ∈ n.Fragments, f.DateCreated = none) := by
  unfold DbPostgres.AddNote QueryRow
  simp only
  split_ifs with hb
  · exact ⟨⟨[], Grows.refl _, by simp⟩, fun h => by cases h⟩
  · have hf := addFragments_follows n.Fragments (db.call (.addNoteQuery (noteCols n))).1
    have hp := addFragments_panic n.Fragments (db.call (.addNoteQuery (noteCols n))).1
    rcases addFragments_cases n.Fragments (db.call (.addNoteQuery (noteCols n))).1 with
      hc | hc | ⟨c, d, hc⟩
    · have hq := hp hc
      rw [hc] at hf
      generalize DbPostgres.addFragments _ n.Fragments = r at hf hc
      obtain ⟨r1, r2⟩ := r
      simp only at hc hf
      subst hc
      obtain ⟨l, g, p, _⟩ := hf
      exact ⟨⟨l, g, p.trans (List.prefix_append _ _)⟩, fun _ => hq⟩
    · rw [hc] at hf
      generalize DbPostgres.addFragments _ n.Fragments = r at hf hc
      obtain ⟨r1, r2⟩ := r
      simp only at hc hf
      subst hc
      simp only
      have ht := addNoteTags_follows n n.Tags r1
      rcases addNoteTags_err n n.Tags r1 with he | ⟨c, d, he⟩
      · have hall := Follows.seq hf ht
        rw [he] at hall
        generalize DbPostgres.addNoteTags r1 n n.Tags = t at hall he
        obtain ⟨t1, t2⟩ := t
        simp only at he hall
        subst he
        obtain ⟨l, g, p, _⟩ := hall
        exact ⟨⟨l, g, p⟩, fun h => by cases h⟩
      · have hall := Follows.seq hf ht
        rw [he] at hall
        generalize DbPostgres.addNoteTags r1 n n.Tags = t at hall he
        obtain ⟨t1, t2⟩ := t
        simp only at he hall
        subst he
        obtain ⟨l, g, p, _⟩ := hall
        exact ⟨⟨l, g, p⟩, fun h => by cases h⟩
    · rw [hc] at hf
      generalize DbPostgres.addFragments _ n.Fragments = r at hf hc
      obtain ⟨r1, r2⟩ := r
      simp only at hc hf
      subst hc
      obtain ⟨l, g, p, _⟩ := hf
      exact ⟨⟨l, g, p.trans (List.prefix_append _ _)⟩, fun h => by cases h⟩

/-! ## The order of the inserts and what ends them -/

theorem quiet_false {r : Result} (h : r.quiet = false) :
    (∃ text, r = .err text) ∨ ∃ k, r = .row k := by
  cases r with
  | err text => exact Or.inl ⟨text, rfl⟩
  | row k => exact Or.inr ⟨k, rfl⟩
  | noRows => simp [Result.quiet, Scan, notNilNotNoRows] at h
  | notes rows => simp [Result.quiet, Scan, notNilNotNoRows] at h

/-- C3 (defect in the code, the one of C1). What `AddNote` does, for every state of the
handle and every note: it always sends the insert of the note row first; the calls it
makes are an initial part of `notePlan` (the note row, each fragment in list order
through `AddNoteFragment`, the tags in list order through `AddNoteTag`); and it ends in
one of three ways. Either every call passed, the whole plan was sent and `n.Id` comes
back with a nil error. Or the last call made is the first that did not pass, nothing is
sent after it, 0 comes back with an error that carries the failure of that call, and the
rows inserted before stay (`Grows`): that call was failed by the backend, or it was
executed and reported its generated key, which `Scan` into a by-value destination turns
into an error. Or a fragment has a nil timestamp and the call panics. So a failed insert
is handled as the claim says, but an insert that reports its key stops `AddNote` as
well: on a backend that executes every insert and reports the key, the note row is
stored and neither the fragment nor the tags are sent, although no insert failed. On a
backend that reports no rows the whole plan is sent. -/
theorem C3_AddNote_stops_at_the_first_reported_key :
    (∀ (db : Db) (n : Note),
      Grows db (DbPostgres.AddNote db n).1 (db.since (DbPostgres.AddNote db n).1) ∧
      (∃ rest, db.since (DbPostgres.AddNote db n).1 =
        (.addNoteQuery (noteCols n), (db.call (.addNoteQuery (noteCols n))).2) :: rest) ∧
      (db.since (DbPostgres.AddNote db n).1).map Prod.fst <+: notePlan n ∧
      (((DbPostgres.AddNote db n).2 = .ret (n.Id, none) ∧
          (∀ x ∈ db.since (DbPostgres.AddNote db n).1, x.2.quiet = true) ∧
          (db.since (DbPostgres.AddNote db n).1).map Prod.fst = notePlan n) ∨
        (∃ e l₀ s r, (DbPostgres.AddNote db n).2 = .ret (0, some e) ∧
          db.since (DbPostgres.AddNote db n).1 = l₀ ++ [(s, r)] ∧
          (∀ x ∈ l₀, x.2.quiet = true) ∧
          ((∃ text, r = .err text ∧ e.root = .driver text) ∨
            (∃ k, r = .row k ∧ e.root = .scanNotPointer))) ∨
        ((DbPostgres.AddNote db n).2 = .panic ∧
          (∀ x ∈ db.since (DbPostgres.AddNote db n).1, x.2.quiet = true) ∧
          ∃ f ∈ n.Fragments, f.DateCreated = none)) ∧
      (∀ l₁ s text l₂,
        db.since (DbPostgres.AddNote db n).1 = l₁ ++ (s, Result.err text) :: l₂ →
          l₂ = [] ∧ ∃ e, (DbPostgres.AddNote db n).2 = .ret (0, some e) ∧
            e.root = .driver text)) ∧
    notePlan sampleNote =
      [.addNoteQuery (noteCols sampleNote),
        .addNoteFragmentQuery (fragmentCols sampleFragment ⟨10, 20⟩),
        .addNoteTagQuery ⟨"f1", "t1"⟩, .addNoteTagQuery ⟨"n1", "t2"⟩] ∧
    (DbPostgres.AddNote Db.ready sampleNote).2 =
      .ret (0, some (.wrapf .ErrPostgresDbAddNoteFailedToGetNewId "" .scanNotPointer)) ∧
    (DbPostgres.AddNote Db.ready sampleNote).1.trace =
      [(.addNoteQuery (noteCols sampleNote), .row 1)] ∧
    (DbPostgres.AddNote Db.ready sampleNote).1.note = [⟨1, noteCols sampleNote⟩] ∧
    (DbPostgres.AddNote Db.ready sampleNote).1.note_fragment = [] ∧
    (DbPostgres.AddNote Db.ready sampleNote).1.note_tag = [] ∧
    (DbPostgres.AddNote (Db.quiet 4) sampleNote).2 = .ret (7, none) ∧
    (DbPostgres.AddNote (Db.quiet 4) sampleNote).1.trace.map Prod.fst = notePlan sampleNote := by
  refine ⟨?_, by decide, by decide, by decide, by decide, by decide, by decide, by decide,
    by decide⟩
  intro db n
  obtain ⟨l, g, p, r⟩ := AddNote_follows db n
  obtain ⟨⟨l', g', _⟩, hpanic⟩ := AddNote_shape db n
  have gfirst := (call_grows db (.addNoteQuery (noteCols n))).trans g'
  have hfirst : db.since (DbPostgres.AddNote db n).1 =
      (.addNoteQuery (noteCols n), (db.call (.addNoteQuery (noteCols n))).2) :: l' := by
    rw [gfirst.since]; rfl
  refine ⟨by rw [g.since]; exact g, ⟨l', hfirst⟩, by rw [g.since]; exact p, ?_, ?_⟩
  · rw [g.since]
    rcases AddNote_cases db n with hc | hc | ⟨c, d, hc⟩
    · rw [hc] at r
      exact Or.inr (Or.inr ⟨hc, r, hpanic hc⟩)
    · rw [hc] at r
      exact Or.inl ⟨hc, r.1, r.2⟩
    · rw [hc] at r
      obtain ⟨l₀, s, res, hl, hclean, hq, hroot⟩ := r
      refine Or.inr (Or.inl ⟨_, l₀, s, res, hc, hl, hclean, ?_⟩)
      rcases quiet_false hq with ⟨text, ht⟩ | ⟨k, hk⟩
      · subst ht
        simp only [Scan, Option.some.injEq] at hroot
        exact Or.inl ⟨text, rfl, hroot.symm⟩
      · subst hk
        simp only [Scan, Option.some.injEq] at hroot
        exact Or.inr ⟨k, rfl, hroot.symm⟩
  · rw [g.since]
    intro l₁ s text l₂ hl
    rcases AddNote_cases db n with hc | hc | ⟨c, d, hc⟩
    · rw [hc] at r
      exact (Clean.no_err r hl).elim
    · rw [hc] at r
      exact (Clean.no_err r.1 hl).elim
    · rw [hc] at r
      obtain ⟨h2, hroot⟩ := StoppedAt.last r hl
      exact ⟨h2, _, hc, hroot⟩

/-! ## The marked block of the bootstrap -/

theorem tagPlan_not_create (owner : String) (tags : List String) :
    ∀ s ∈ tagPlan owner tags, s.isCreate = false := by
  intro s hs
  simp only [tagPlan, List.mem_map] at hs
  obtain ⟨t, _, h⟩ := hs
  subst h
  rfl

theorem fragmentsPlan_not_create (frags : List NoteFragment) :
    ∀ s ∈ fragmentsPlan frags, s.isCreate = false := by
  induction frags with
  | nil => intro s hs; cases hs
  | cons v rest ih =>
    intro s hs
    simp only [fragmentsPlan, List.mem_append] at hs
    rcases hs with h | h
    · unfold fragmentPlan at h
      cases hd : v.DateCreated with
      | none => rw [hd] at h; cases h
      | some ts =>
        rw [hd] at h
        simp only [List.mem_cons] at h
        rcases h with h | h
        · subst h; rfl
        · exact tagPlan_not_create _ _ s h
    · exact ih s h

theorem tmpNote_fragments (codes : EnumCodes) (fresh : Nat → Fresh) :
    ∀ f ∈ (DbPostgres.tmpNote codes fresh).Fragments, f.DateCreated ≠ none := by
  intro f hf
  simp only [DbPostgres.tmpNote, NewNote, NewNoteFragment, List.nil_append, List.mem_cons,
    List.mem_singleton, List.not_mem_nil, or_false] at hf
  rcases hf with h | h <;> subst h <;> simp

theorem AllNotes_state (fresh : Nat → Fresh) (db : Db) :
    (DbPostgres.AllNotes fresh db).1 = (db.call .selectAllNotes).1 := by
  unfold DbPostgres.AllNotes
  generalize db.call .selectAllNotes = c
  obtain ⟨c1, c2⟩ := c
  cases c2 with
  | err text => rfl
  | noRows => rfl
  | row id => rfl
  | notes rows =>
    simp only
    cases DbPostgres.scanNotes fresh 0 rows <;> rfl

/-- The marked block of `createSchema` always returns nil; it begins with the insert of
the temporary note and sends no create-table statement. -/
theorem createSchemaTail_spec (codes : EnumCodes) (fresh : Nat → Fresh) (db : Db) :
    (DbPostgres.createSchemaTail codes fresh db).2 = .ret none ∧
    ∃ l, Grows db (DbPostgres.createSchemaTail codes fresh db).1
        ((.addNoteQuery (noteCols (DbPostgres.tmpNote codes fresh)),
          (db.call (.addNoteQuery (noteCols (DbPostgres.tmpNote codes fresh)))).2) :: l) ∧
      ∀ x ∈ l, x.1.isCreate = false := by
  obtain ⟨⟨l, g, p⟩, hp⟩ := AddNote_shape db (DbPostgres.tmpNote codes fresh)
  have hnp : (DbPostgres.AddNote db (DbPostgres.tmpNote codes fresh)).2 ≠ .panic := by
    intro h
    obtain ⟨f, hf, hd⟩ := hp h
    exact tmpNote_fragments codes fresh f hf hd
  have hg1 := (call_grows db (.addNoteQuery (noteCols (DbPostgres.tmpNote codes fresh)))).trans g
  have hl : ∀ x ∈ l, x.1.isCreate = false := by
    intro x hx
    have hm : x.1 ∈ l.map Prod.fst := List.mem_map_of_mem _ hx
    rcases List.mem_append.mp (p.subset hm) with h | h
    · exact fragmentsPlan_not_create _ _ h
    · exact tagPlan_not_create _ _ _ h
  unfold DbPostgres.createSchemaTail
  rcases AddNote_cases db (DbPostgres.tmpNote codes fresh) with hc | hc | ⟨c, d, hc⟩
  · exact (hnp hc).elim
  · generalize DbPostgres.AddNote db (DbPostgres.tmpNote codes fresh) = r at hc hg1
    obtain ⟨r1, r2⟩ := r
    simp only at hc hg1
    subst hc
    refine ⟨rfl, l ++ [(.selectAllNotes, (r1.call .selectAllNotes).2)], ?_, ?_⟩
    · have h2 := hg1.trans (call_grows r1 .selectAllNotes)
      rw [AllNotes_state]
      simpa using h2
    · intro x hx
      rcases List.mem_append.mp hx with h | h
      · exact hl x h
      · simp only [List.mem_singleton] at h
        subst h; rfl
  · generalize DbPostgres.AddNote db (DbPostgres.tmpNote codes fresh) = r at hc hg1
    obtain ⟨r1, r2⟩ := r
    simp only at hc hg1
    subst hc
    refine ⟨rfl, l ++ [(.selectAllNotes, (r1.call .selectAllNotes).2)], ?_, ?_⟩
    · have h2 := hg1.trans (call_grows r1 .selectAllNotes)
      rw [AllNotes_state]
      simpa using h2
    · intro x hx
      rcases List.mem_append.mp hx with h | h
      · exact hl x h
      · simp only [List.mem_singleton] at h
        subst h; rfl

/-- The loop over the create-table statements: its calls are an initial part of the
statements; it ends without an error when every call was tolerated, and all were made;
it ends with an error at the first call that was not, and names that statement. -/
theorem createAll_spec (steps : List Stmt) (db : Db) :
    ∃ l, Grows db (createAll db steps).1 l ∧ l.map Prod.fst <+: steps ∧
      ((createAll db steps).2 = none →
        l.map Prod.fst = steps ∧ ∀ x ∈ l, x.2.tolerated = true) ∧
      (∀ e, (createAll db steps).2 = some e →
        ∃ l₀ s text, l = l₀ ++ [(s, Result.err text)] ∧ (∀ x ∈ l₀, x.2.tolerated = true) ∧
          strings_Contains text "already exists" = false ∧
          e = .wrapf .ErrPostgresDbCreateSchemaFails (targetContext s)
            (.wrapf .ErrPostgresDbCreateTableFails "" (.driver text))) := by
  induction steps generalizing db with
  | nil =>
    refine ⟨[], Grows.refl db, by simp, ?_, ?_⟩
    · intro _
      exact ⟨rfl, fun x hx => by cases hx⟩
    · intro e he
      cases he
  | cons q rest ih =>
    unfold createAll
    simp only
    rw [createTable_stops]
    have hstate : (DbPostgres.createTable db q).1 = (db.call q).1 := by rw [createTable_eq]
    by_cases ht : (db.call q).2.tolerated = true
    · simp only [ht, Bool.not_true, Bool.false_eq_true, if_false]
      rw [hstate]
      obtain ⟨l, g, p, hn, hs⟩ := ih (db.call q).1
      refine ⟨(q, (db.call q).2) :: l, (call_grows db q).trans g, ?_, ?_, ?_⟩
      · simp only [List.map_cons]
        exact (List.prefix_cons_inj q).mpr p
      · intro h
        obtain ⟨h1, h2⟩ := hn h
        refine ⟨by simp only [List.map_cons, h1], ?_⟩
        intro x hx
        rcases List.mem_cons.mp hx with hx | hx
        · subst hx; exact ht
        · exact h2 x hx
      · intro e he
        obtain ⟨l₀, s, text, hl, hc, hne, hee⟩ := hs e he
        refine ⟨(q, (db.call q).2) :: l₀, s, text, by rw [hl]; rfl, ?_, hne, hee⟩
        intro x hx
        rcases List.mem_cons.mp hx with hx | hx
        · subst hx; exact ht
        · exact hc x hx
    · have ht' : (db.call q).2.tolerated = false := by simpa using ht
      simp only [ht', Bool.not_false, if_true]
      rw [hstate]
      refine ⟨[(q, (db.call q).2)], call_grows db q, ?_, ?_, ?_⟩
      · simp only [List.map_cons, List.map_nil]
        exact (List.prefix_cons_inj q).mpr (List.nil_prefix)
      · intro h
        rw [createTable_eq] at h
        cases hr : (db.call q).2 with
        | err text =>
          rw [hr] at h ht'
          simp only [Result.tolerated] at ht'
          simp [ht'] at h
        | noRows => rw [hr] at ht'; cases ht'
        | row id => rw [hr] at ht'; cases ht'
        | notes rows => rw [hr] at ht'; cases ht'
      · intro e he
        rw [createTable_eq] at he
        cases hr : (db.call q).2 with
        | err text =>
          rw [hr] at he ht'
          simp only [Result.tolerated] at ht'
          simp only [ht', Bool.false_eq_true, if_false, Option.map_some',
            Option.some.injEq] at he
          exact ⟨[], q, text, rfl, (fun x hx => by cases hx), ht', he.symm⟩
        | noRows => rw [hr] at ht'; cases ht'
        | row id => rw [hr] at ht'; cases ht'
        | notes rows => rw [hr] at ht'; cases ht'

theorem filter_isCreate_schemaOrder (l : List Stmt) (h : ∀ x ∈ l, x.isCreate = false) :
    (schemaOrder ++ l).filter Stmt.isCreate = schemaOrder := by
  have : l.filter Stmt.isCreate = [] := by
    rw [List.filter_eq_nil_iff]
    intro a ha
    simp [h a ha]
  rw [List.filter_append, this]
  rfl

theorem filter_isCreate_initial (l : List Stmt) (h : l <+: schemaOrder) :
    l.filter Stmt.isCreate = l := by
  rw [List.filter_eq_self]
  intro a ha
  have := h.subset ha
  simp only [schemaOrder, List.mem_cons, List.mem_singleton, List.not_mem_nil, or_false] at this
  rcases this with h | h | h | h <;> subst h <;> rfl

theorem isCreate_of_mem_schemaOrder {s : Stmt} (h : s ∈ schemaOrder) : s.isCreate = true := by
  simp only [schemaOrder, List.mem_cons, List.mem_singleton, List.not_mem_nil, or_false] at h
  rcases h with h | h | h | h <;> subst h <;> rfl

/-- C6. `createSchema` always returns. The create-table statements it sends are an
initial part of `note`, `note_tag`, `note_fragment`, `note_fragment_tag`, in that order.
It returns nil exactly when every create-table statement it sent was tolerated (it
succeeded, or failed with an error whose text contains `already exists`, which
`createTable` maps to `ErrPostgresDbInitTableAlreadyExistsErr`), and then all four were
sent. When it returns an error, the failing statement is the last call made through the
handle (no later table is attempted), every statement before it was tolerated, and the
error names the table of the failing statement. -/
theorem C6_createSchema_order_and_result (codes : EnumCodes) (fresh : Nat → Fresh) (db : Db) :
    (∃ err, (DbPostgres.createSchema codes fresh db).2 = .ret err) ∧
    ((db.since (DbPostgres.createSchema codes fresh db).1).map Prod.fst).filter Stmt.isCreate
      <+: schemaOrder ∧
    ((DbPostgres.createSchema codes fresh db).2 = .ret none ↔
      ∀ x ∈ db.since (DbPostgres.createSchema codes fresh db).1,
        x.1.isCreate = true → x.2.tolerated = true) ∧
    ((DbPostgres.createSchema codes fresh db).2 = .ret none →
      ((db.since (DbPostgres.createSchema codes fresh db).1).map Prod.fst).filter Stmt.isCreate
        = schemaOrder) ∧
    (∀ e, (DbPostgres.createSchema codes fresh db).2 = .ret (some e) →
      ∃ l₀ s text,
        db.since (DbPostgres.createSchema codes fresh db).1 = l₀ ++ [(s, Result.err text)] ∧
        (l₀ ++ [(s, Result.err text)]).map Prod.fst <+: schemaOrder ∧
        (∀ x ∈ l₀, x.2.tolerated = true) ∧
        strings_Contains text "already exists" = false ∧
        e = .wrapf .ErrPostgresDbCreateSchemaFails (targetContext s)
          (.wrapf .ErrPostgresDbCreateTableFails "" (.driver text))) ∧
    (∀ (d : Db) (q : Stmt) (text : String), (d.call q).2 = .err text →
      strings_Contains text "already exists" = true →
        (DbPostgres.createTable d q).2 =
          some (.sentinel .ErrPostgresDbInitTableAlreadyExistsErr)) := by
  have hmap : ∀ (d : Db) (q : Stmt) (text : String), (d.call q).2 = .err text →
      strings_Contains text "already exists" = true →
        (DbPostgres.createTable d q).2 =
          some (.sentinel .ErrPostgresDbInitTableAlreadyExistsErr) := by
    intro d q text h1 h2
    rw [createTable_eq]
    simp only [h1, h2, if_true]
  rw [createSchema_eq]
  obtain ⟨l, g, p, hn, hs⟩ := createAll_spec schemaOrder db
  generalize createAll db schemaOrder = c at g hn hs
  obtain ⟨d, err⟩ := c
  cases err with
  | none =>
    dsimp only at g hn hs ⊢
    obtain ⟨hm, htol⟩ := hn rfl
    obtain ⟨hret, l', g', hl'⟩ := createSchemaTail_spec codes fresh d
    have hall := g.trans g'
    rw [hall.since, hret]
    have hfilter : (List.map Prod.fst (l ++ ((Stmt.addNoteQuery (noteCols (DbPostgres.tmpNote codes fresh)),
        (d.call (Stmt.addNoteQuery (noteCols (DbPostgres.tmpNote codes fresh)))).2) :: l'))).filter
          Stmt.isCreate = schemaOrder := by
      rw [List.map_append, hm]
      apply filter_isCreate_schemaOrder
      intro x hx
      simp only [List.map_cons, List.mem_cons, List.mem_map] at hx
      rcases hx with hx | ⟨y, hy, hx⟩
      · subst hx; rfl
      · subst hx; exact hl' y hy
    refine ⟨⟨none, rfl⟩, ?_, ?_, fun _ => hfilter, ?_, hmap⟩
    · rw [hfilter]
    · refine ⟨fun _ x hx hc => ?_, fun _ => rfl⟩
      rcases List.mem_append.mp hx with hx | hx
      · exact htol x hx
      · rcases List.mem_cons.mp hx with hx | hx
        · subst hx; cases hc
        · rw [hl' x hx] at hc; cases hc
    · intro e he
      cases he
  | some e =>
    dsimp only at g hn hs ⊢
    obtain ⟨l₀, s, text, hl, hc, hne, hee⟩ := hs e rfl
    rw [g.since]
    have hsmem : s ∈ schemaOrder := by
      apply p.subset
      rw [hl]
      simp
    refine ⟨⟨some e, rfl⟩, ?_, ?_, ?_, ?_, hmap⟩
    · rw [filter_isCreate_initial _ p]
      exact p
    · refine ⟨(fun h => by cases h), fun h => ?_⟩
      have := h (s, Result.err text) (by rw [hl]; simp) (isCreate_of_mem_schemaOrder hsmem)
      simp only [Result.tolerated] at this
      rw [hne] at this
      cases this
    · intro h
      cases h
    · intro e' he'
      simp only [Outcome.ret.injEq, Option.some.injEq] at he'
      subst he'
      subst hl
      exact ⟨l₀, s, text, rfl, p, hc, hne, hee⟩

theorem createSchema_grows (codes : EnumCodes) (fresh : Nat → Fresh) (db : Db) :
    (∃ l, Grows db (DbPostgres.createSchema codes fresh db).1 l) ∧
    ∃ err, (DbPostgres.createSchema codes fresh db).2 = .ret err := by
  rw [createSchema_eq]
  obtain ⟨l, g, _, _, _⟩ := createAll_spec schemaOrder db
  generalize createAll db schemaOrder = c at g
  obtain ⟨d, err⟩ := c
  cases err with
  | none =>
    obtain ⟨hret, l', g', _⟩ := createSchemaTail_spec codes fresh d
    exact ⟨⟨_, g.trans g'⟩, none, hret⟩
  | some e => exact ⟨⟨l, g⟩, some e, rfl⟩

/-- C10 (defect in the code). After the four tables `createSchema` runs a block marked
`TODO: Remove this` that adds a temporary note: every run that returns nil has sent the
insert of that note. On a store in which the four tables exist and are empty, one run
returns nil and leaves one row in `note`, a second run leaves two. -/
theorem C10_createSchema_adds_a_note_on_every_run :
    (∀ (codes : EnumCodes) (fresh : Nat → Fresh) (db : Db),
      (DbPostgres.createSchema codes fresh db).2 = .ret none →
        ∃ l₁ r l₂, db.since (DbPostgres.createSchema codes fresh db).1 =
          l₁ ++ (.addNoteQuery (noteCols (DbPostgres.tmpNote codes fresh)), r) :: l₂) ∧
    Db.ready.note = [] ∧
    (DbPostgres.createSchema sampleCodes sampleFresh Db.ready).2 = .ret none ∧
    (DbPostgres.createSchema sampleCodes sampleFresh Db.ready).1.note =
      [⟨1, noteCols (DbPostgres.tmpNote sampleCodes sampleFresh)⟩] ∧
    (DbPostgres.createSchema sampleCodes sampleFresh
      (DbPostgres.createSchema sampleCodes sampleFresh Db.ready).1).1.note.length = 2 := by
  refine ⟨?_, rfl, by decide, by decide, by decide⟩
  intro codes fresh db h
  rw [createSchema_eq] at h ⊢
  obtain ⟨l, g, _, _, _⟩ := createAll_spec schemaOrder db
  generalize createAll db schemaOrder = c at g h
  obtain ⟨d, err⟩ := c
  cases err with
  | none =>
    obtain ⟨_, l', g', _⟩ := createSchemaTail_spec codes fresh d
    exact ⟨l, _, l', (g.trans g').since⟩
  | some e => cases h

/-! ## Initialization -/

theorem Exec_eq (db : Db) (q : Stmt) :
    Exec db q = ((db.call q).1,
      match (db.call q).2 with
      | .err text => some text
      | _ => none) := by
  unfold Exec
  generalize db.call q = c
  obtain ⟨d, r⟩ := c
  cases r <;> rfl

theorem Grows.close {a b : Db} {l : List (Stmt × Result)} (h : Grows a b l) :
    a.since b.Close = l := by
  simp [Db.since, Db.Close, h.trace]

theorem Initialize_of_refusal (d : DbPostgres) (config : Config)
    (sqlOpen : String → Except String Db) (codes : EnumCodes) (fresh : Nat → Fresh)
    (hpq : PqDriver sqlOpen) (href : (pqRefusal (connStr config)).isSome = true) :
    ∃ e, (DbPostgres.Initialize d config sqlOpen codes fresh).out = .ret (none, some e) := by
  cases ho : sqlOpen (connStr config) with
  | error text =>
    unfold DbPostgres.Initialize
    rw [ho]
    exact ⟨_, rfl⟩
  | ok db =>
    obtain ⟨text, ht⟩ := hpq _ db ho href
    unfold DbPostgres.Initialize
    rw [ho]
    simp only
    rw [Exec_eq, ht]
    exact ⟨_, rfl⟩

theorem unconnected_ping (text : String) :
    ((Db.unconnected text).call .ping).2 = .err text := rfl

theorem pqOpen_is_PqDriver (server : List (String × String) → Except String Db) :
    PqDriver (pqOpen server) := by
  intro name db ho href
  unfold pqOpen at ho
  unfold pqRefusal at href
  split_ifs at href with hurl
  · cases href
  · cases hp : pq_parseOpts name with
    | error e =>
      rw [hp] at ho
      simp only [Except.ok.injEq] at ho
      subst ho
      exact ⟨_, unconnected_ping _⟩
    | ok o =>
      rw [hp] at ho href
      simp only at ho href
      cases hs : server (pq_withDefaults o) with
      | error text =>
        rw [hs] at ho
        simp only [Except.ok.injEq] at ho
        subst ho
        exact ⟨_, unconnected_ping _⟩
      | ok db' =>
        rw [hs] at ho
        simp only at ho
        cases he : pq_sslError o with
        | none => rw [he] at href; cases href
        | some e =>
          rw [he] at ho
          simp only [Except.ok.injEq] at ho
          subst ho
          exact ⟨_, unconnected_ping _⟩

/-- C4 (the claim does not hold: counterexample). The driver is `lib/pq` and the only
server is a local one with `trust` authentication. With the configuration whose fields
are all empty, `Initialize` returns an error, but not without opening a handle and
pinging: the driver reads the connection string
`user= password= host= dbname= sslmode= port=` as user `password=`, host `dbname=` and
sslmode `port=`, a handle was opened, the ping was sent through it, and the error is
the wrapped `ErrPostgresDbInitFailedToPingDb` carrying the failure of the dial. With the
configuration in which only the password is empty the driver reads the password as
`host=localhost`, the connection to the local server is made, and `Initialize` returns a
nil error. -/
theorem C4_empty_fields_are_not_checked :
    connStr Config.zero = "user= password= host= dbname= sslmode= port=" ∧
    pq_parseOpts (connStr Config.zero) =
      .ok [("user", "password="), ("host", "dbname="), ("sslmode", "port=")] ∧
    (DbPostgres.Initialize ⟨none⟩ Config.zero (pqOpen trustServer) sampleCodes
      sampleFresh).out =
        .ret (none, some (.wrapf .ErrPostgresDbInitFailedToPingDb ""
          (.driver "dial tcp: lookup dbname=: no such host"))) ∧
    (DbPostgres.Initialize ⟨none⟩ Config.zero (pqOpen trustServer) sampleCodes
      sampleFresh).opened.map (fun h => h.trace) =
        some [(.ping, .err "dial tcp: lookup dbname=: no such host")] ∧
    configNoPassword.DbPassword = "" ∧
    connStr configNoPassword =
      "user=clerk password= host=localhost dbname=notes sslmode=disable port=5432" ∧
    pq_parseOpts (connStr configNoPassword) =
      .ok [("user", "clerk"), ("password", "host=localhost"), ("dbname", "notes"),
        ("sslmode", "disable"), ("port", "5432")] ∧
    (DbPostgres.Initialize ⟨none⟩ configNoPassword (pqOpen trustServer) sampleCodes
      sampleFresh).out.map Prod.snd = .ret none ∧
    (DbPostgres.Initialize ⟨none⟩ configNoPassword (pqOpen trustServer) sampleCodes
      sampleFresh).opened.map (fun h => h.trace.head?) = some (some (.ping, .noRows)) := by
  refine ⟨by decide, rfl, by decide, by decide, by decide, by decide, rfl, by decide,
    by decide⟩

/-- C4 (as amended). For the configuration whose fields are all empty `Initialize`
returns a non-nil error whenever the handles come from `lib/pq`: the driver turns the
connection string down, so the ping fails (or the open does). It does so after opening
and pinging, for `Initialize` does not inspect the fields of the configuration; they
only make up the connection string handed to `sql.Open`. For every configuration: when
the open fails the result is the wrapped `ErrPostgresDbInitFailedToOpenConn` and nothing
was opened; when the open succeeds the first call through the handle is the ping, and
the error is nil exactly when the ping passes and `createSchema` returns nil; and
whenever the driver turns the connection string down the result is an error. With
`lib/pq` in front of any server at all, the empty configuration gives an error. -/
theorem C4_Initialize_is_decided_by_the_backend (d : DbPostgres) (config : Config)
    (sqlOpen : String → Except String Db) (codes : EnumCodes) (fresh : Nat → Fresh) :
    (∀ text, sqlOpen (connStr config) = .error text →
      (DbPostgres.Initialize d config sqlOpen codes fresh).out =
        .ret (none, some (.wrapf .ErrPostgresDbInitFailedToOpenConn "" (.driver text))) ∧
      (DbPostgres.Initialize d config sqlOpen codes fresh).opened = none) ∧
    (∀ db, sqlOpen (connStr config) = .ok db →
      (∃ h rest, (DbPostgres.Initialize d config sqlOpen codes fresh).opened = some h ∧
        db.since h = (.ping, (db.call .ping).2) :: rest) ∧
      ((DbPostgres.Initialize d config sqlOpen codes fresh).out.map Prod.snd = .ret none ↔
        ((∀ text, (db.call .ping).2 ≠ .err text) ∧
          (DbPostgres.createSchema codes fresh (db.call .ping).1).2 = .ret none))) ∧
    (PqDriver sqlOpen → (pqRefusal (connStr config)).isSome = true →
      ∃ e, (DbPostgres.Initialize d config sqlOpen codes fresh).out = .ret (none, some e)) ∧
    pqRefusal (connStr Config.zero) = some (.unsupportedSslmode "port=") ∧
    (PqDriver sqlOpen →
      ∃ e, (DbPostgres.Initialize d Config.zero sqlOpen codes fresh).out =
        .ret (none, some e)) ∧
    (∀ server : List (String × String) → Except String Db, PqDriver (pqOpen server)) ∧
    (∀ server : List (String × String) → Except String Db,
      ∃ e, (DbPostgres.Initialize d Config.zero (pqOpen server) codes fresh).out =
        .ret (none, some e)) := by
  refine ⟨?_, ?_, Initialize_of_refusal d config sqlOpen codes fresh, by decide,
    fun hpq => Initialize_of_refusal d Config.zero sqlOpen codes fresh hpq (by decide),
    pqOpen_is_PqDriver,
    fun server => Initialize_of_refusal d Config.zero (pqOpen server) codes fresh
      (pqOpen_is_PqDriver server) (by decide)⟩
  · intro text h
    unfold DbPostgres.Initialize
    rw [h]
    exact ⟨rfl, rfl⟩
  · intro db h
    unfold DbPostgres.Initialize
    rw [h]
    simp only
    rw [Exec_eq]
    have hp := call_grows db .ping
    cases hr : (db.call .ping).2 with
    | err text =>
      simp only
      refine ⟨⟨_, [], rfl, ?_⟩, ?_⟩
      · rw [hp.close, hr]
      · simp [Outcome.map]
    | noRows =>
      simp only
      obtain ⟨⟨l, g⟩, err, he⟩ := createSchema_grows codes fresh (db.call .ping).1
      generalize DbPostgres.createSchema codes fresh (db.call .ping).1 = c at g he
      obtain ⟨c1, c2⟩ := c
      simp only at he g
      subst he
      have hall := hp.trans g
      rw [hr] at hall
      cases err with
      | none => exact ⟨⟨_, l, rfl, hall.close⟩, by simp [Outcome.map]⟩
      | some e => exact ⟨⟨_, l, rfl, hall.close⟩, by simp [Outcome.map]⟩
    | row id =>
      simp only
      obtain ⟨⟨l, g⟩, err, he⟩ := createSchema_grows codes fresh (db.call .ping).1
      generalize DbPostgres.createSchema codes fresh (db.call .ping).1 = c at g he
      obtain ⟨c1, c2⟩ := c
      simp only at he g
      subst he
      have hall := hp.trans g
      rw [hr] at hall
      cases err with
      | none => exact ⟨⟨_, l, rfl, hall.close⟩, by simp [Outcome.map]⟩
      | some e => exact ⟨⟨_, l, rfl, hall.close⟩, by simp [Outcome.map]⟩
    | notes rows =>
      simp only
      obtain ⟨⟨l, g⟩, err, he⟩ := createSchema_grows codes fresh (db.call .ping).1
      generalize DbPostgres.createSchema codes fresh (db.call .ping).1 = c at g he
      obtain ⟨c1, c2⟩ := c
      simp only at he g
      subst he
      have hall := hp.trans g
      rw [hr] at hall
      cases err with
      | none => exact ⟨⟨_, l, rfl, hall.close⟩, by simp [Outcome.map]⟩
      | some e => exact ⟨⟨_, l, rfl, hall.close⟩, by simp [Outcome.map]⟩

/-! ## Configuration -/

theorem configIsEmpty_iff (conf : Config) :
    configIsEmpty conf = true ↔
      (conf.Version = "" ∨ conf.LogPath = "" ∨ conf.ServerProtocol = "" ∨ conf.ServerIp = "" ∨
        conf.ServerPort = "" ∨ conf.DbIp = "" ∨ conf.DbPort = "" ∨ conf.DbUsername = "" ∨
        conf.DbPassword = "" ∨ conf.DbName = "" ∨ conf.DbSslMode = "") := by
  simp only [configIsEmpty, Bool.or_eq_true, beq_iff_eq]
  tauto

theorem LoadConfiguration_parsed (ReadFile : String → Except GoError String)
    (Unmarshal : String → Except GoError Config)
    (wrap : Option GoError → Sentinel → Option GoError) (path file : String) (conf : Config)
    (hread : ReadFile path = .ok file) (hparse : Unmarshal file = .ok conf) :
    LoadConfiguration ReadFile Unmarshal wrap path =
      if configIsEmpty conf then
        (Config.zero, wrap none .ErrLoadConfigurationAbortsAfterJsonMarshalDueToEmptyConfig)
      else (conf, none) := by
  unfold LoadConfiguration
  rw [hread]
  simp only
  rw [hparse]

/-- C5. For a file that can be read and whose content parses as the configuration
`conf`: when none of the eleven fields of `conf` is the empty string, `LoadConfiguration`
returns `conf` itself with a nil error; when one of them is empty it returns the zero
configuration together with whatever the helper `NoteClerkErrWrap` makes of the nil
`err` and `ErrLoadConfigurationAbortsAfterJsonMarshalDueToEmptyConfig`. With the helper
as section 6 of the spec has it (a failure of that kind), the error is non-nil if and
only if one of the eleven fields is empty. -/
theorem C5_LoadConfiguration_required_fields (ReadFile : String → Except GoError String)
    (Unmarshal : String → Except GoError Config) (path file : String) (conf : Config)
    (hread : ReadFile path = .ok file) (hparse : Unmarshal file = .ok conf) :
    ((LoadConfiguration ReadFile Unmarshal NoteClerkErrWrap path).2 ≠ none ↔
      (conf.Version = "" ∨ conf.LogPath = "" ∨ conf.ServerProtocol = "" ∨ conf.ServerIp = "" ∨
        conf.ServerPort = "" ∨ conf.DbIp = "" ∨ conf.DbPort = "" ∨ conf.DbUsername = "" ∨
        conf.DbPassword = "" ∨ conf.DbName = "" ∨ conf.DbSslMode = "")) ∧
    (∀ wrap : Option GoError → Sentinel → Option GoError,
      (conf.Version ≠ "" ∧ conf.LogPath ≠ "" ∧ conf.ServerProtocol ≠ "" ∧ conf.ServerIp ≠ "" ∧
        conf.ServerPort ≠ "" ∧ conf.DbIp ≠ "" ∧ conf.DbPort ≠ "" ∧ conf.DbUsername ≠ "" ∧
        conf.DbPassword ≠ "" ∧ conf.DbName ≠ "" ∧ conf.DbSslMode ≠ "") →
      LoadConfiguration ReadFile Unmarshal wrap path = (conf, none)) ∧
    (∀ wrap : Option GoError → Sentinel → Option GoError,
      (conf.Version = "" ∨ conf.LogPath = "" ∨ conf.ServerProtocol = "" ∨ conf.ServerIp = "" ∨
        conf.ServerPort = "" ∨ conf.DbIp = "" ∨ conf.DbPort = "" ∨ conf.DbUsername = "" ∨
        conf.DbPassword = "" ∨ conf.DbName = "" ∨ conf.DbSslMode = "") →
      LoadConfiguration ReadFile Unmarshal wrap path =
        (Config.zero,
          wrap none .ErrLoadConfigurationAbortsAfterJsonMarshalDueToEmptyConfig)) ∧
    ((conf.Version = "" ∨ conf.LogPath = "" ∨ conf.ServerProtocol = "" ∨ conf.ServerIp = "" ∨
        conf.ServerPort = "" ∨ conf.DbIp = "" ∨ conf.DbPort = "" ∨ conf.DbUsername = "" ∨
        conf.DbPassword = "" ∨ conf.DbName = "" ∨ conf.DbSslMode = "") →
      LoadConfiguration ReadFile Unmarshal NoteClerkErrWrap path =
        (Config.zero,
          some (.sentinel .ErrLoadConfigurationAbortsAfterJsonMarshalDueToEmptyConfig))) := by
  have hfull : ∀ wrap : Option GoError → Sentinel → Option GoError,
      (conf.Version ≠ "" ∧ conf.LogPath ≠ "" ∧ conf.ServerProtocol ≠ "" ∧ conf.ServerIp ≠ "" ∧
        conf.ServerPort ≠ "" ∧ conf.DbIp ≠ "" ∧ conf.DbPort ≠ "" ∧ conf.DbUsername ≠ "" ∧
        conf.DbPassword ≠ "" ∧ conf.DbName ≠ "" ∧ conf.DbSslMode ≠ "") →
      LoadConfiguration ReadFile Unmarshal wrap path = (conf, none) := by
    intro wrap hne
    rw [LoadConfiguration_parsed ReadFile Unmarshal wrap path file conf hread hparse]
    have he : ¬ configIsEmpty conf = true := by
      intro he
      obtain ⟨h1, h2, h3, h4, h5, h6, h7, h8, h9, h10, h11⟩ := hne
      rcases (configIsEmpty_iff conf).mp he with h | h | h | h | h | h | h | h | h | h | h
      · exact h1 h
      · exact h2 h
      · exact h3 h
      · exact h4 h
      · exact h5 h
      · exact h6 h
      · exact h7 h
      · exact h8 h
      · exact h9 h
      · exact h10 h
      · exact h11 h
    rw [if_neg he]
  have hempty : ∀ wrap : Option GoError → Sentinel → Option GoError,
      (conf.Version = "" ∨ conf.LogPath = "" ∨ conf.ServerProtocol = "" ∨ conf.ServerIp = "" ∨
        conf.ServerPort = "" ∨ conf.DbIp = "" ∨ conf.DbPort = "" ∨ conf.DbUsername = "" ∨
        conf.DbPassword = "" ∨ conf.DbName = "" ∨ conf.DbSslMode = "") →
      LoadConfiguration ReadFile Unmarshal wrap path =
        (Config.zero,
          wrap none .ErrLoadConfigurationAbortsAfterJsonMarshalDueToEmptyConfig) := by
    intro wrap hf
    rw [LoadConfiguration_parsed ReadFile Unmarshal wrap path file conf hread hparse,
      if_pos ((configIsEmpty_iff conf).mpr hf)]
  refine ⟨?_, hfull, hempty, fun hf => hempty NoteClerkErrWrap hf⟩
  rw [LoadConfiguration_parsed ReadFile Unmarshal NoteClerkErrWrap path file conf hread hparse]
  by_cases he : configIsEmpty conf = true
  · rw [if_pos he]
    exact ⟨fun _ => (configIsEmpty_iff conf).mp he, fun _ => by simp [NoteClerkErrWrap]⟩
  · rw [if_neg he]
    exact ⟨fun h => (h rfl).elim, fun hf => (he ((configIsEmpty_iff conf).mpr hf)).elim⟩

/-- C5 at two concrete inputs: a readable file that parses as the sample configuration,
which comes back unchanged with a nil error, and a readable file that parses as the
configuration without a password, for which the zero configuration comes back with the
error of the empty configuration. -/
theorem C5_LoadConfiguration_required_fields_witness :
    (sampleReadFile "config.json" = .ok "content" ∧
      sampleUnmarshal "content" = .ok sampleConfig ∧
      LoadConfiguration sampleReadFile sampleUnmarshal NoteClerkErrWrap "config.json" =
        (sampleConfig, none)) ∧
    (sampleReadFile "config.json" = .ok "content" ∧
      unmarshalNoPassword "content" = .ok configNoPassword ∧
      configNoPassword.DbPassword = "" ∧
      (LoadConfiguration sampleReadFile unmarshalNoPassword NoteClerkErrWrap "config.json").2
        ≠ none ∧
      LoadConfiguration sampleReadFile unmarshalNoPassword NoteClerkErrWrap "config.json" =
        (Config.zero,
          some (.sentinel .ErrLoadConfigurationAbortsAfterJsonMarshalDueToEmptyConfig))) :=
  ⟨⟨rfl, rfl,
      (C5_LoadConfiguration_required_fields sampleReadFile sampleUnmarshal "config.json"
        "content" sampleConfig rfl rfl).2.1 NoteClerkErrWrap (by decide)⟩,
    ⟨rfl, rfl, rfl,
      (C5_LoadConfiguration_required_fields sampleReadFile unmarshalNoPassword "config.json"
        "content" configNoPassword rfl rfl).1.mpr (by decide),
      (C5_LoadConfiguration_required_fields sampleReadFile unmarshalNoPassword "config.json"
        "content" configNoPassword rfl rfl).2.2.2 (by decide)⟩⟩

/-! ## Reading the notes back -/

theorem call_select (db : Db) :
    (db.call .selectAllNotes).2 = .notes (db.call .selectAllNotes).1.note ∨
      ∃ text, (db.call .selectAllNotes).2 = .err text := by
  unfold Db.call
  split_ifs
  · exact Or.inr ⟨_, rfl⟩
  · split
    · exact Or.inr ⟨_, rfl⟩
    · simp only [Db.execute]
      split_ifs
      · exact Or.inl rfl
      · exact Or.inr ⟨_, rfl⟩

theorem AllNotes_of_nil (fresh : Nat → Fresh) (db : Db)
    (h : (DbPostgres.AllNotes fresh db).2.2 = none) :
    DbPostgres.scanNotes fresh 0 (db.call .selectAllNotes).1.note =
      .ok (DbPostgres.AllNotes fresh db).2.1 := by
  unfold DbPostgres.AllNotes at h ⊢
  rcases call_select db with hc | ⟨text, hc⟩
  · generalize db.call .selectAllNotes = c at hc h
    obtain ⟨c1, c2⟩ := c
    simp only at hc
    subst hc
    simp only at h ⊢
    cases hs : DbPostgres.scanNotes fresh 0 c1.note with
    | error e => rw [hs] at h; simp at h
    | ok ms => rfl
  · generalize db.call .selectAllNotes = c at hc h
    obtain ⟨c1, c2⟩ := c
    simp only at hc
    subst hc
    simp at h

theorem scanNote_ok {f : Fresh} {r : Row NoteCols} {m : Note}
    (h : DbPostgres.scanNote f r = .ok m) :
    m.Fragments = [] ∧ m.Tags = [] ∧ m.Id = r.id ∧ noteCols m = r.cols := by
  unfold DbPostgres.scanNote at h
  cases hf : DbPostgres.firstMisfit r with
  | some i => rw [hf] at h; cases h
  | none =>
    rw [hf] at h
    simp only [Except.ok.injEq] at h
    subst h
    exact ⟨rfl, rfl, rfl, rfl⟩

theorem scanNotes_empty_lists (fresh : Nat → Fresh) (rows : List (Row NoteCols)) (k : Nat)
    (ms : List Note) (h : DbPostgres.scanNotes fresh k rows = .ok ms) :
    ∀ m ∈ ms, m.Fragments = [] ∧ m.Tags = [] := by
  induction rows generalizing k ms with
  | nil =>
    simp only [DbPostgres.scanNotes, Except.ok.injEq] at h
    subst h
    intro m hm
    cases hm
  | cons r rest ih =>
    unfold DbPostgres.scanNotes at h
    cases h1 : DbPostgres.scanNote (fresh k) r with
    | error e => rw [h1] at h; cases h
    | ok m₀ =>
      rw [h1] at h
      cases h2 : DbPostgres.scanNotes fresh (k + 1) rest with
      | error e => rw [h2] at h; cases h
      | ok ms₀ =>
        rw [h2] at h
        simp only [Except.ok.injEq] at h
        subst h
        intro m hm
        rcases List.mem_cons.mp hm with hm | hm
        · subst hm
          exact ⟨(scanNote_ok h1).1, (scanNote_ok h1).2.1⟩
        · exact ih _ _ h2 m hm

theorem scanNotes_row (fresh : Nat → Fresh) (rows : List (Row NoteCols)) (k : Nat)
    (ms : List Note) (h : DbPostgres.scanNotes fresh k rows = .ok ms)
    (r : Row NoteCols) (hr : r ∈ rows) :
    ∃ m ∈ ms, m.Id = r.id ∧ noteCols m = r.cols := by
  induction rows generalizing k ms with
  | nil => cases hr
  | cons r₀ rest ih =>
    unfold DbPostgres.scanNotes at h
    cases h1 : DbPostgres.scanNote (fresh k) r₀ with
    | error e => rw [h1] at h; cases h
    | ok m₀ =>
      rw [h1] at h
      cases h2 : DbPostgres.scanNotes fresh (k + 1) rest with
      | error e => rw [h2] at h; cases h
      | ok ms₀ =>
        rw [h2] at h
        simp only [Except.ok.injEq] at h
        subst h
        rcases List.mem_cons.mp hr with hh | hh
        · subst hh
          exact ⟨m₀, List.mem_cons_self _ _, (scanNote_ok h1).2.2.1, (scanNote_ok h1).2.2.2⟩
        · obtain ⟨m, hm, h3, h4⟩ := ih _ _ h2 hh
          exact ⟨m, List.mem_cons_of_mem _ hm, h3, h4⟩

/-- C7 (the claim does not hold: counterexample). The sample note, with one fragment and
one tag, is stored by `AddNote` with a nil error; `AllNotes` then returns the note of
that guid with an empty fragment list and an empty tag list. -/
theorem C7_AllNotes_returns_no_fragments_or_tags :
    (DbPostgres.AddNote (Db.quiet 4) sampleNote).2 = .ret (7, none) ∧
    sampleNote.Fragments = [sampleFragment] ∧ sampleNote.Tags = ["t2"] ∧
    (DbPostgres.AllNotes sampleFresh (DbPostgres.AddNote (Db.quiet 4) sampleNote).1).2 =
      ([{ sampleNote with Id := 1, Fragments := [], Tags := [] }], none) := by
  refine ⟨by decide, rfl, rfl, by decide⟩

/-- C7 (as amended). For every note that `AddNote` stored with a nil error, when
`AllNotes` then returns a nil error, the notes it returns include one that carries the
columns of the stored note row (the guid among them), and every note it returns has an
empty fragment list and an empty tag list: `AllNotes` reads the `note` table only. -/
theorem C7_AllNotes_reads_the_note_rows_only (fresh : Nat → Fresh) (db : Db) (n : Note)
    (id : Int) (hstored : (DbPostgres.AddNote db n).2 = .ret (id, none))
    (hread : (DbPostgres.AllNotes fresh (DbPostgres.AddNote db n).1).2.2 = none) :
    (∃ m ∈ (DbPostgres.AllNotes fresh (DbPostgres.AddNote db n).1).2.1,
      m.NoteGuid = n.NoteGuid ∧ noteCols m = noteCols n) ∧
    (∀ m ∈ (DbPostgres.AllNotes fresh (DbPostgres.AddNote db n).1).2.1,
      m.Fragments = [] ∧ m.Tags = []) := by
  have hscan := AllNotes_of_nil fresh _ hread
  refine ⟨?_, scanNotes_empty_lists fresh _ 0 _ hscan⟩
  have hf := AddNote_follows db n
  rw [hstored] at hf
  obtain ⟨l, g, _, hc, hm⟩ := hf
  obtain ⟨x, hx, hcols⟩ := g.note
  rw [executed_of_clean hc, hm] at hcols
  simp only [notePlan, noteColsOf] at hcols
  have hmem : noteCols n ∈ x.map (fun r => r.cols) := by rw [hcols]; exact List.mem_cons_self _ _
  obtain ⟨r, hr, hrc⟩ := List.mem_map.mp hmem
  have hsel := (call_grows (DbPostgres.AddNote db n).1 .selectAllNotes).note
  obtain ⟨y, hy, _⟩ := hsel
  have hrow : r ∈ ((DbPostgres.AddNote db n).1.call .selectAllNotes).1.note := by
    rw [hy, hx]
    simp [hr]
  obtain ⟨m, hmm, _, h2⟩ := scanNotes_row fresh _ 0 _ hscan r hrow
  refine ⟨m, hmm, ?_, by rw [h2, hrc]⟩
  have h3 := congrArg NoteCols.note_guid (h2.trans hrc)
  exact h3

/-- C7 as amended, at a concrete input: the sample note on a backend that executes its
four inserts. -/
theorem C7_AllNotes_reads_the_note_rows_only_witness :
    (DbPostgres.AddNote (Db.quiet 4) sampleNote).2 = .ret (7, none) ∧
    (DbPostgres.AllNotes sampleFresh (DbPostgres.AddNote (Db.quiet 4) sampleNote).1).2.2 = none ∧
    ((∃ m ∈ (DbPostgres.AllNotes sampleFresh (DbPostgres.AddNote (Db.quiet 4) sampleNote).1).2.1,
      m.NoteGuid = sampleNote.NoteGuid ∧ noteCols m = noteCols sampleNote) ∧
    (∀ m ∈ (DbPostgres.AllNotes sampleFresh (DbPostgres.AddNote (Db.quiet 4) sampleNote).1).2.1,
      m.Fragments = [] ∧ m.Tags = [])) :=
  ⟨by decide, by decide,
    C7_AllNotes_reads_the_note_rows_only sampleFresh (Db.quiet 4) sampleNote 7 (by decide)
      (by decide)⟩

/-! ## The placeholders -/

/-- C8 (the claim does not hold: counterexample). With the logger whose `Fatal` ends the
process, each of the five fragment operations ends the process with the message
`Not implemented.`; none returns an error to its caller. -/
theorem C8_placeholders_end_the_process :
    DbPostgres.UpdateNoteFragment fatalLog sampleFragment = .exit "Not implemented." ∧
    DbPostgres.DeleteNoteFragment fatalLog 1 = .exit "Not implemented." ∧
    DbPostgres.GetNoteFragmentsById fatalLog 1 = .exit "Not implemented." ∧
    DbPostgres.FindNoteFragments fatalLog ⟨"f1"⟩ = .exit "Not implemented." ∧
    DbPostgres.AllNoteFragments fatalLog = .exit "Not implemented." :=
  ⟨rfl, rfl, rfl, rfl, rfl⟩

/-- C8 (as amended). Each of the five fragment operations calls
`log.Fatal("Not implemented.")` and has no error to return: for every logger and every
input it ends the way that call ends when the call does not return, and returns nil
values with a nil error when it does; it never returns a non-nil error. -/
theorem C8_placeholders_return_no_error (log : GmdLog) :
    (∀ n, (∃ u, log.Fatal "Not implemented." = .ret u ∧
        DbPostgres.UpdateNoteFragment log n = .ret none) ∨
      (log.Fatal "Not implemented." = .panic ∧ DbPostgres.UpdateNoteFragment log n = .panic) ∨
      (∃ msg, log.Fatal "Not implemented." = .exit msg ∧
        DbPostgres.UpdateNoteFragment log n = .exit msg)) ∧
    (∀ id, (∃ u, log.Fatal "Not implemented." = .ret u ∧
        DbPostgres.DeleteNoteFragment log id = .ret none) ∨
      (log.Fatal "Not implemented." = .panic ∧ DbPostgres.DeleteNoteFragment log id = .panic) ∨
      (∃ msg, log.Fatal "Not implemented." = .exit msg ∧
        DbPostgres.DeleteNoteFragment log id = .exit msg)) ∧
    (∀ id, (∃ u, log.Fatal "Not implemented." = .ret u ∧
        DbPostgres.GetNoteFragmentsById log id = .ret (none, none)) ∨
      (log.Fatal "Not implemented." = .panic ∧
        DbPostgres.GetNoteFragmentsById log id = .panic) ∨
      (∃ msg, log.Fatal "Not implemented." = .exit msg ∧
        DbPostgres.GetNoteFragmentsById log id = .exit msg)) ∧
    (∀ filter, (∃ u, log.Fatal "Not implemented." = .ret u ∧
        DbPostgres.FindNoteFragments log filter = .ret ([], none)) ∨
      (log.Fatal "Not implemented." = .panic ∧
        DbPostgres.FindNoteFragments log filter = .panic) ∨
      (∃ msg, log.Fatal "Not implemented." = .exit msg ∧
        DbPostgres.FindNoteFragments log filter = .exit msg)) ∧
    ((∃ u, log.Fatal "Not implemented." = .ret u ∧
        DbPostgres.AllNoteFragments log = .ret ([], none)) ∨
      (log.Fatal "Not implemented." = .panic ∧ DbPostgres.AllNoteFragments log = .panic) ∨
      (∃ msg, log.Fatal "Not implemented." = .exit msg ∧
        DbPostgres.AllNoteFragments log = .exit msg)) := by
  unfold DbPostgres.UpdateNoteFragment DbPostgres.DeleteNoteFragment
    DbPostgres.GetNoteFragmentsById DbPostgres.FindNoteFragments DbPostgres.AllNoteFragments
  cases h : log.Fatal "Not implemented." with
  | ret u => simp [Outcome.andThen]
  | panic => simp [Outcome.andThen]
  | exit msg => simp [Outcome.andThen]

/-! ## The service boundary -/

/-- C9. A create request whose note carries a non-zero id is rejected: `CreateNote`
returns a non-nil error and a nil response, and the store is the same after the call as
before, for every store behind the contract. -/
theorem C9_CreateNote_rejects_a_preset_id {S : Type} (store : RecordStore S) (s : S)
    (fresh : Nat → Fresh) (req : CreateNoteRequest) (hid : req.Note.Id ≠ 0) :
    (Server.CreateNote store s fresh req).2.2 ≠ none ∧
    (Server.CreateNote store s fresh req).2.1 = none ∧
    (Server.CreateNote store s fresh req).1 = s := by
  unfold Server.CreateNote
  rw [if_pos hid]
  exact ⟨by simp, rfl, rfl⟩

/-- C9 at a concrete input: the in-memory store holding one note, and a request whose
note carries the id 1; the collection of the store is unchanged. -/
theorem C9_CreateNote_rejects_a_preset_id_witness :
    sampleRequest.Note.Id ≠ 0 ∧
    (Server.CreateNote MockDb.store ⟨[sampleNote]⟩ sampleFresh sampleRequest).2.2 ≠ none ∧
    (Server.CreateNote MockDb.store ⟨[sampleNote]⟩ sampleFresh sampleRequest).2.1 = none ∧
    (Server.CreateNote MockDb.store ⟨[sampleNote]⟩ sampleFresh sampleRequest).1.db =
      [sampleNote] :=
  have h := C9_CreateNote_rejects_a_preset_id MockDb.store ⟨[sampleNote]⟩ sampleFresh
    sampleRequest (by decide)
  ⟨by decide, h.1, h.2.1, by rw [h.2.2]⟩

/-! ## The timestamp of now -/

theorem int32_range (x : Int) : -2147483648 ≤ int32 x ∧ int32 x < 2147483648 := by
  unfold int32
  omega

theorem int32_congruent (x : Int) : (int32 x - x) % 4294967296 = 0 := by
  unfold int32
  omega

/-- C11 (defect in the code). `TimestampNow` sets `Nanos: int32(now.UnixNano())`: the
whole count of nanoseconds since the epoch cut down to its low 32 bits, not the
remainder below one second. `Seconds` is the floor of `N / 10^9` for every `N`; `Nanos`
is the signed 32-bit number congruent to `N` modulo `2^32`, and the timestamp adds up
to `N` only when that number happens to equal `N mod 10^9`. At the instant
`N = 1541325600123456789` the result is `Seconds = 1541325600`, `Nanos = -1902965483`
where the remainder is `123456789`; at `N = 1500000000` it is `Seconds = 1`,
`Nanos = 1500000000`. -/
theorem C11_TimestampNow_nanos_is_the_truncated_count :
    (∀ N : Int, (TimestampNow N).Seconds * 1000000000 ≤ N ∧
      N < ((TimestampNow N).Seconds + 1) * 1000000000) ∧
    (∀ N : Int, -2147483648 ≤ (TimestampNow N).Nanos ∧ (TimestampNow N).Nanos < 2147483648 ∧
      ((TimestampNow N).Nanos - N) % 4294967296 = 0) ∧
    (∀ N : Int, (TimestampNow N).Seconds * 1000000000 + (TimestampNow N).Nanos = N ↔
      (TimestampNow N).Nanos = N % 1000000000) ∧
    TimestampNow 1541325600123456789 = ⟨1541325600, -1902965483⟩ ∧
    (1541325600123456789 : Int) % 1000000000 = 123456789 ∧
    (1541325600 : Int) * 1000000000 + -1902965483 ≠ 1541325600123456789 ∧
    TimestampNow 1500000000 = ⟨1, 1500000000⟩ ∧
    ¬ (TimestampNow 1500000000).Nanos < 1000000000 := by
  refine ⟨?_, ?_, ?_, by decide, by decide, by decide, by decide, by decide⟩
  · intro N
    simp only [TimestampNow]
    omega
  · intro N
    simp only [TimestampNow]
    exact ⟨(int32_range N).1, (int32_range N).2, int32_congruent N⟩
  · intro N
    simp only [TimestampNow]
    omega

/-! ## The handle after initialization -/

theorem call_of_closed (db : Db) (h : db.closed = true) (s : Stmt) :
    (db.call s).2 = .err "sql: database is closed" := by
  unfold Db.call
  rw [if_pos h]

/-- C12 (defect in the code). `Initialize` registers `defer db.Close()` on the handle it
goes on to store and return. Whenever it returns a nil error, the returned handle is the
one in the receiver's `db` field, and it is closed: every call through it fails with
`sql: database is closed`. With the sample configuration and a backend that accepts
everything, the returned handle is closed and a following `AddNote` fails on its first
call, leaving the `note` table as `Initialize` left it. -/
theorem C12_returned_handle_is_closed :
    (∀ (d : DbPostgres) (config : Config) (sqlOpen : String → Except String Db)
        (codes : EnumCodes) (fresh : Nat → Fresh) (h : Db),
      (DbPostgres.Initialize d config sqlOpen codes fresh).out = .ret (some h, none) →
        (DbPostgres.Initialize d config sqlOpen codes fresh).recv.db = some h ∧
        h.closed = true ∧ ∀ s, (h.call s).2 = .err "sql: database is closed") ∧
    (DbPostgres.Initialize ⟨none⟩ sampleConfig (fun _ => .ok Db.blank) sampleCodes
      sampleFresh).out.map (fun r => (r.1.map fun h => h.closed, r.2)) =
        .ret (some true, none) ∧
    (DbPostgres.Initialize ⟨none⟩ sampleConfig (fun _ => .ok Db.blank) sampleCodes
      sampleFresh).recv.db.map (fun h => (DbPostgres.AddNote h sampleNote).2) =
        some (.ret (0, some (.wrapf .ErrPostgresDbAddNoteFailedToGetNewId ""
          (.driver "sql: database is closed")))) ∧
    (DbPostgres.Initialize ⟨none⟩ sampleConfig (fun _ => .ok Db.blank) sampleCodes
      sampleFresh).recv.db.map (fun h => (DbPostgres.AddNote h sampleNote).1.note) =
    (DbPostgres.Initialize ⟨none⟩ sampleConfig (fun _ => .ok Db.blank) sampleCodes
      sampleFresh).recv.db.map (fun h => h.note) := by
  refine ⟨?_, by decide, by decide, by decide⟩
  · intro d config sqlOpen codes fresh h hret
    cases ho : sqlOpen (connStr config) with
    | error text =>
      unfold DbPostgres.Initialize at hret
      rw [ho] at hret
      simp at hret
    | ok db =>
      unfold DbPostgres.Initialize at hret ⊢
      rw [ho] at hret ⊢
      simp only at hret ⊢
      rw [Exec_eq] at hret ⊢
      cases hr : (db.call .ping).2 with
      | err text =>
        rw [hr] at hret
        simp at hret
      | noRows =>
        rw [hr] at hret
        simp only at hret ⊢
        generalize DbPostgres.createSchema codes fresh (db.call .ping).1 = c at hret ⊢
        obtain ⟨c1, c2⟩ := c
        cases c2 with
        | panic => simp at hret
        | exit msg => simp at hret
        | ret err =>
          cases err with
          | some e => simp at hret
          | none =>
            simp only [Outcome.ret.injEq, Prod.mk.injEq, Option.some.injEq, and_true] at hret
            subst hret
            exact ⟨rfl, rfl, call_of_closed _ rfl⟩
      | row id =>
        rw [hr] at hret
        simp only at hret ⊢
        generalize DbPostgres.createSchema codes fresh (db.call .ping).1 = c at hret ⊢
        obtain ⟨c1, c2⟩ := c
        cases c2 with
        | panic => simp at hret
        | exit msg => simp at hret
        | ret err =>
          cases err with
          | some e => simp at hret
          | none =>
            simp only [Outcome.ret.injEq, Prod.mk.injEq, Option.some.injEq, and_true] at hret
            subst hret
            exact ⟨rfl, rfl, call_of_closed _ rfl⟩
      | notes rows =>
        rw [hr] at hret
        simp only at hret ⊢
        generalize DbPostgres.createSchema codes fresh (db.call .ping).1 = c at hret ⊢
        obtain ⟨c1, c2⟩ := c
        cases c2 with
        | panic => simp at hret
        | exit msg => simp at hret
        | ret err =>
          cases err with
          | some e => simp at hret
          | none =>
            simp only [Outcome.ret.injEq, Prod.mk.injEq, Option.some.injEq, and_true] at hret
            subst hret
            exact ⟨rfl, rfl, call_of_closed _ rfl⟩

end NoteClerk
